import Mathlib

/-!
Verification development for the postgres-backup-manager repository.

The development shallowly embeds the backup lifecycle and storage
reconciliation core of the repository:

* `src/lib/storage/s3.js` : `listAllBackups`, `getBackupStats`,
  `listS3Backups`, `deleteFromS3` (the JavaScript `Map` used for merging is
  embedded as a list with in-place updates, which has the same semantics
  when filenames are distinct on each side; S3 object keys are modelled by
  their trailing filename since the configured key prefix is applied
  uniformly by upload, list and delete).
* `src/lib/backup.js` : `listLocalBackups`, `deleteLocalBackup`,
  `getLocalBackupPath`, `applyRetentionPolicy`, `createBackup`
  (the filesystem is embedded as the list of stored files with their
  name, size and modification time; the external `pg_dump` invocation is
  embedded as an oracle value describing its outcome; dates are integers
  counted in days so that the calendar-day cutoff arithmetic of
  `retentionDate.setDate(getDate() - retentionDays)` is integer
  subtraction).
* `src/lib/config.js` : the configuration store (mode string, manual
  configuration records, environment-variable fallbacks; `parseInt` of
  numeric environment variables is abstracted as an already-parsed
  `Option Nat`; the JavaScript truthiness of strings is embedded
  explicitly, the empty string being falsy).
* Node `path.basename` / `path.join` as used by the repository, embedded
  over path components including the `.` and `..` normalization that
  `path.join` performs.
-/

/-- Splits a list of characters on a separator character. Mirrors the
behaviour of splitting a string on a one-character separator: the result
is always non-empty and concatenating it with the separator interspersed
gives back the input. -/
def splitOnChar (sep : Char) : List Char → List (List Char)
  | [] => [[]]
  | c :: cs =>
    match splitOnChar sep cs with
    | [] => [[]]
    | h :: t => if c == sep then [] :: h :: t else (c :: h) :: t

/-- Path components of a string, split on the path separator. Mirrors how
Node resolves the components of a POSIX path. -/
def splitPath (s : String) : List String :=
  (splitOnChar '/' s.data).map String.mk

/-- Embedding of Node `path.basename` for POSIX paths without a trailing
separator: the portion of the path after the last separator. -/
def pathBasename (s : String) : String :=
  (splitPath s).getLastD ""

/-- One step of the path normalization performed by Node `path.join`:
empty components and `.` are dropped, `..` pops the previous component
when one is available (and otherwise is kept, for relative paths), and
any other component is appended. -/
def normStep (stack : List String) (comp : String) : List String :=
  if comp == "" || comp == "." then stack
  else if comp == ".." then
    match stack.getLast? with
    | none => [".."]
    | some last => if last == ".." then stack ++ [".."] else stack.dropLast
  else stack ++ [comp]

/-- Normalizes a component list the way Node `path.join` normalizes the
concatenation of its arguments. -/
def normalizePath (comps : List String) : List String :=
  comps.foldl normStep []

/-- Embedding of `getLocalBackupPath` from `src/lib/backup.js`:
`path.join(backupConfig.localPath, path.basename(filename))`, viewed as
the normalized component list of the resulting path. The same expression
is used by `deleteLocalBackup` to resolve the file it removes. -/
def getLocalBackupPath (localPath : String) (filename : String) : List String :=
  normalizePath (splitPath localPath ++ splitPath (pathBasename filename))

/-- Tests whether the first list starts with the second. -/
def listStartsWith : List Char → List Char → Bool
  | _, [] => true
  | [], _ :: _ => false
  | c :: cs, d :: ds => c == d && listStartsWith cs ds

/-- Embedding of JavaScript `String.prototype.endsWith`. -/
def strEndsWith (s suf : String) : Bool :=
  listStartsWith s.data.reverse suf.data.reverse

/-- Embedding of JavaScript `String.prototype.startsWith`. -/
def strStartsWith (s pre : String) : Bool :=
  listStartsWith s.data pre.data

/-- Tests whether the second list occurs contiguously inside the first. -/
def listContainsSub : List Char → List Char → Bool
  | [], needle => needle.isEmpty
  | c :: cs, needle => listStartsWith (c :: cs) needle || listContainsSub cs needle

/-- Embedding of JavaScript `String.prototype.includes`. -/
def strIncludes (s sub : String) : Bool :=
  listContainsSub s.data sub.data

/-- Embedding of JavaScript `String.prototype.toLowerCase` for the ASCII
strings handled by the repository. -/
def toLowerString (s : String) : String :=
  String.mk (s.data.map Char.toLower)

/-- A backup artifact as produced by the archive listings of
`src/lib/backup.js` and `src/lib/storage/s3.js`: `date` is an integer
timestamp counted in days, `location` is one of the location strings the
code uses, and `format` is absent on artifacts coming from the remote
listing (mirroring the JavaScript object that has no `format` field). -/
structure Artifact where
  filename : String
  size : Nat
  date : Int
  location : String
  format : Option String
deriving DecidableEq

/-- A file as stored by an archive: its name (for the Remote Archive, the
object key with the constant configured prefix stripped, since upload,
list and delete all apply the same prefix), its size in bytes, and its
modification time. -/
structure StoredFile where
  name : String
  size : Nat
  mtime : Int
deriving DecidableEq

/-- The two archives the Backup Lifecycle Engine reconciles. -/
structure ArchState where
  localFiles : List StoredFile
  remoteFiles : List StoredFile
deriving DecidableEq

/-- Names of a list of stored files. -/
def storedNames (files : List StoredFile) : List String :=
  files.map StoredFile.name

/-- Filenames of a list of artifacts. -/
def backupNames (backups : List Artifact) : List String :=
  backups.map Artifact.filename

/-- Embedding of `listLocalBackups` from `src/lib/backup.js`: scans the
backup directory, keeps files with a `.sql` or `.dump` extension, and
derives size, date and format; every entry is tagged `location="local"`.
The unreadable-directory case degrades to an empty list in the source and
is represented by an empty `files` list here. -/
def listLocalBackups (files : List StoredFile) : List Artifact :=
  (files.filter fun f => strEndsWith f.name ".sql" || strEndsWith f.name ".dump").map fun f =>
    { filename := f.name, size := f.size, date := f.mtime, location := "local",
      format := some (if strEndsWith f.name ".dump" then "dump" else "sql") }

/-- Embedding of `listS3Backups` from `src/lib/storage/s3.js`: lists the
objects under the `backup_` search prefix and maps each to an artifact
with the object basename, size and last-modified time, tagged
`location="remote"`. Failures degrade to an empty list in the source and
are represented by an empty `s3Objects` list here. -/
def listS3Backups (s3Objects : List StoredFile) : List Artifact :=
  (s3Objects.filter fun o => strStartsWith o.name "backup_").map fun o =>
    { filename := o.name, size := o.size, date := o.mtime, location := "remote", format := none }

/-- One iteration of the merge loop in `listAllBackups` from
`src/lib/storage/s3.js`, with the JavaScript `Map` embedded as a list of
artifacts keyed by filename: a remote entry whose filename is already
present upgrades the existing entry to `location="both"` in place,
otherwise the remote entry is appended with `location="remote"`. -/
def mergeStep (backupMap : List Artifact) (backup : Artifact) : List Artifact :=
  if backupMap.any fun a => a.filename == backup.filename then
    backupMap.map fun a =>
      if a.filename == backup.filename then { a with location := "both" } else a
  else backupMap ++ [{ backup with location := "remote" }]

/-- The merge phase of `listAllBackups`: local entries are inserted first
with `location="local"`, then the remote entries are folded in. -/
def mergeBackups (localBackups remoteBackups : List Artifact) : List Artifact :=
  remoteBackups.foldl mergeStep (localBackups.map fun a => { a with location := "local" })

/-- Embedding of `listAllBackups` from `src/lib/storage/s3.js`: consults
the Local Archive when the storage mode is `local` or `both`, consults the
Remote Archive when the storage mode is `remote` or `both` and S3 is
configured, merges the two listings by filename, and sorts the merged
artifacts by descending date. -/
def listAllBackups (storage : String) (s3Configured : Bool)
    (localFiles remoteFiles : List StoredFile) : List Artifact :=
  let localBackups :=
    if storage == "local" || storage == "both" then listLocalBackups localFiles else []
  let remoteBackups :=
    if (storage == "remote" || storage == "both") && s3Configured then
      listS3Backups remoteFiles
    else []
  List.insertionSort (fun a b => b.date ≤ a.date) (mergeBackups localBackups remoteBackups)

instance : IsTotal Artifact (fun a b => b.date ≤ a.date) :=
  ⟨fun a b => le_total b.date a.date⟩

instance : IsTrans Artifact (fun a b => b.date ≤ a.date) :=
  ⟨fun _ _ _ hab hbc => le_trans hbc hab⟩

/-- The statistics record computed by `getBackupStats`. The `local` and
`remote` fields of the JavaScript object are named `localCount` and
`remoteCount` because `local` is a reserved word in Lean. -/
structure BackupStats where
  total : Nat
  localCount : Nat
  remoteCount : Nat
  totalSize : Nat
deriving DecidableEq

/-- One iteration of the statistics loop of `getBackupStats`: the size is
always added, and each location counter is bumped according to the
artifact location, a `both` artifact bumping both counters. -/
def statsStep (stats : BackupStats) (backup : Artifact) : BackupStats :=
  let stats := { stats with totalSize := stats.totalSize + backup.size }
  if backup.location == "local" then
    { stats with localCount := stats.localCount + 1 }
  else if backup.location == "remote" then
    { stats with remoteCount := stats.remoteCount + 1 }
  else if backup.location == "both" then
    { stats with localCount := stats.localCount + 1, remoteCount := stats.remoteCount + 1 }
  else stats

/-- Embedding of `getBackupStats` from `src/lib/storage/s3.js`. -/
def getBackupStats (storage : String) (s3Configured : Bool)
    (localFiles remoteFiles : List StoredFile) : BackupStats :=
  let allBackups := listAllBackups storage s3Configured localFiles remoteFiles
  allBackups.foldl statsStep
    { total := allBackups.length, localCount := 0, remoteCount := 0, totalSize := 0 }

/-- Embedding of `deleteLocalBackup` from `src/lib/backup.js`: unlinks the
file at `path.join(localPath, path.basename(filename))`, that is, removes
the stored file whose name is the basename of the argument. -/
def deleteLocalBackup (filename : String) (files : List StoredFile) : List StoredFile :=
  files.filter fun f => !(f.name == pathBasename filename)

/-- Embedding of `deleteFromS3` from `src/lib/storage/s3.js`: deletes the
object at key `prefix + filename` (the prefix is constant, so the object
whose stored name equals the filename). -/
def deleteFromS3 (filename : String) (s3Objects : List StoredFile) : List StoredFile :=
  s3Objects.filter fun o => !(o.name == filename)

/-- One iteration of the retention loop of `applyRetentionPolicy` from
`src/lib/backup.js`: an artifact dated strictly before the retention date
is deleted from the Local Archive when its location is `local` or `both`
and from the Remote Archive when its location is `remote` or `both`, and
the deleted counter is incremented once. -/
def retentionStep (retentionDate : Int) (acc : ArchState × Nat) (backup : Artifact) :
    ArchState × Nat :=
  if backup.date < retentionDate then
    let st1 :=
      if backup.location == "local" || backup.location == "both" then
        { acc.1 with localFiles := deleteLocalBackup backup.filename acc.1.localFiles }
      else acc.1
    let st2 :=
      if backup.location == "remote" || backup.location == "both" then
        { st1 with remoteFiles := deleteFromS3 backup.filename st1.remoteFiles }
      else st1
    (st2, acc.2 + 1)
  else acc

/-- Embedding of `applyRetentionPolicy` from `src/lib/backup.js`: computes
the retention date as now minus the configured number of retention days
(dates are counted in days, matching the calendar-day subtraction
performed with `setDate`), fetches the reconciled listing, and sweeps it
with `retentionStep`. Returns the resulting archives and the number of
deleted artifacts. -/
def applyRetentionPolicy (storage : String) (s3Configured : Bool) (retentionDays : Nat)
    (now : Int) (st : ArchState) : ArchState × Nat :=
  let retentionDate : Int := now - retentionDays
  let allBackups := listAllBackups storage s3Configured st.localFiles st.remoteFiles
  allBackups.foldl (retentionStep retentionDate) (st, 0)

/-- The local names removed by a retention sweep over the given listing:
basenames of the expired artifacts whose location is `local` or `both`. -/
def retentionDeletedLocalNames (retentionDate : Int) (backups : List Artifact) : List String :=
  (backups.filter fun b =>
      decide (b.date < retentionDate) && (b.location == "local" || b.location == "both")).map
    fun b => pathBasename b.filename

/-- The remote names removed by a retention sweep over the given listing:
filenames of the expired artifacts whose location is `remote` or `both`. -/
def retentionDeletedRemoteNames (retentionDate : Int) (backups : List Artifact) : List String :=
  (backups.filter fun b =>
      decide (b.date < retentionDate) && (b.location == "remote" || b.location == "both")).map
    fun b => b.filename

/-- Typed error raised by the Backup Lifecycle Engine. -/
inductive BackupError
  | backupCreationFailed (message : String)
deriving DecidableEq

/-- Outcome of the external dump tool invocation performed by
`createBackup`: either the backup file was written with the given size, or
the tool failed with a diagnostic message, possibly leaving a partially
written file of the given size behind. -/
inductive DumpResult
  | success (size : Nat)
  | failure (message : String) (written : Option Nat)
deriving DecidableEq

/-- The descriptor returned by a successful `createBackup`. -/
structure CreatedBackup where
  filename : String
  size : Nat
  format : String
deriving DecidableEq

/-- Embedding of `createBackup` from `src/lib/backup.js`, restricted to
its effect on the Local Archive: on dump success the written file is
recorded and its descriptor returned; on dump failure any partially
written file at the target path is unlinked (the unlink of a missing file
is swallowed) and the error `Backup failed: <diagnostic>` is propagated. -/
def createBackup (files : List StoredFile) (filename : String) (backupFormat : String)
    (now : Int) (dump : DumpResult) : List StoredFile × Except BackupError CreatedBackup :=
  match dump with
  | .success size =>
    (files ++ [{ name := filename, size := size, mtime := now }],
     .ok { filename := filename, size := size, format := backupFormat })
  | .failure message written =>
    let files1 : List StoredFile :=
      match written with
      | some size => files ++ [{ name := filename, size := size, mtime := now }]
      | none => files
    (files1.filter fun f => !(f.name == filename),
     .error (.backupCreationFailed ("Backup failed: " ++ message)))

/-- Typed errors raised by the Configuration Store of `src/lib/config.js`. -/
inductive ConfigError
  | configurationMissing
  | invalidModeOperation
  | invalidModeValue
  | requiredFieldsMissing
deriving DecidableEq

/-- The database configuration record served by `getDatabaseConfig`. -/
structure DbConfig where
  host : String
  port : Nat
  user : String
  password : String
  database : String
  schema : Option String
  excludeTables : List String
deriving DecidableEq

/-- The backup policy record served by `getBackupConfig`. -/
structure BackupConfig where
  auto : Bool
  schedule : String
  retentionDays : Nat
  storage : String
  localPath : String
  format : String
deriving DecidableEq

/-- The remote storage record served by `getS3Config`. The source calls
the key prefix field `prefix`, which is renamed `prefixStr` here. -/
structure S3Config where
  accessKeyId : Option String
  secretAccessKey : Option String
  region : String
  bucket : Option String
  prefixStr : String
  endpoint : Option String
  s3ForcePathStyle : Bool
deriving DecidableEq

/-- The environment variables read by `src/lib/config.js`. A missing
variable is `none`. Variables that the source passes through `parseInt`
are embedded as already-parsed numbers. -/
structure EnvVars where
  dbHost : Option String
  dbPort : Option Nat
  dbUser : Option String
  dbPassword : Option String
  dbName : Option String
  dbSchema : Option String
  dbExcludeTables : Option String
  backupAuto : Option String
  backupSchedule : Option String
  backupRetentionDays : Option Nat
  backupStorage : Option String
  backupLocalPath : Option String
  backupFormat : Option String
  awsAccessKeyId : Option String
  awsSecretAccessKey : Option String
  awsRegion : Option String
  awsS3Bucket : Option String
  awsS3PrefixStr : Option String
  awsS3Endpoint : Option String
  awsS3ForcePathStyle : Option String
deriving DecidableEq

/-- JavaScript `a || b` over an optional string: a missing or empty string
falls back to the default. -/
def orDefault (value : Option String) (dflt : String) : String :=
  match value with
  | some s => if s == "" then dflt else s
  | none => dflt

/-- JavaScript `a || null` over an optional string. -/
def orNull (value : Option String) : Option String :=
  match value with
  | some s => if s == "" then none else some s
  | none => none

/-- JavaScript truthiness of an optional string. -/
def strTruthy (value : Option String) : Bool :=
  match value with
  | some s => !(s == "")
  | none => false

/-- The process-wide state of the Configuration Store: the configuration
mode string (`env` or `manual`) and the manual configuration records,
each unset until explicitly configured. -/
structure ConfigState where
  configMode : String
  manualDatabase : Option DbConfig
  manualBackup : Option BackupConfig
  manualS3 : Option S3Config
deriving DecidableEq

/-- Embedding of `getDatabaseConfig` from `src/lib/config.js`: in manual
mode the manual record is required and its absence is an error; otherwise
the environment variables are read with their documented defaults. -/
def getDatabaseConfig (st : ConfigState) (env : EnvVars) : Except ConfigError DbConfig :=
  if st.configMode == "manual" then
    match st.manualDatabase with
    | none => .error .configurationMissing
    | some c => .ok c
  else
    let excludeTablesEnv := (env.dbExcludeTables).getD ""
    let excludeTables :=
      if excludeTablesEnv == "" then []
      else ((excludeTablesEnv.splitOn ",").map String.trim).filter fun t => !(t == "")
    .ok
      { host := orDefault env.dbHost "localhost",
        port := (env.dbPort).getD 5432,
        user := orDefault env.dbUser "postgres",
        password := (env.dbPassword).getD "",
        database := orDefault env.dbName "postgres",
        schema := orNull env.dbSchema,
        excludeTables := excludeTables }

/-- Embedding of `getBackupConfig` from `src/lib/config.js`: in manual
mode with nothing set it returns the documented defaults instead of
failing; otherwise the environment variables are read with the same
defaults. -/
def getBackupConfig (st : ConfigState) (env : EnvVars) : BackupConfig :=
  if st.configMode == "manual" then
    match st.manualBackup with
    | none =>
      { auto := false, schedule := "0 2 * * *", retentionDays := 7, storage := "local",
        localPath := "./backups", format := "sql" }
    | some c => c
  else
    { auto := env.backupAuto == some "true",
      schedule := orDefault env.backupSchedule "0 2 * * *",
      retentionDays := (env.backupRetentionDays).getD 7,
      storage := orDefault env.backupStorage "local",
      localPath := orDefault env.backupLocalPath "./backups",
      format := orDefault env.backupFormat "sql" }

/-- The provider substrings for which `shouldForcePathStyle` forces path
style addressing. -/
def forcePathStyleServices : List String :=
  ["supabase.co", "minio", "localhost", "127.0.0.1", "digitaloceanspaces.com"]

/-- Embedding of `shouldForcePathStyle` from `src/lib/config.js`: true
when the lowercased endpoint contains one of the known provider
substrings, false for a missing or empty endpoint. -/
def shouldForcePathStyle (endpoint : Option String) : Bool :=
  match endpoint with
  | none => false
  | some e =>
    if e == "" then false
    else forcePathStyleServices.any fun service => strIncludes (toLowerString e) service

/-- Embedding of `getS3Config` from `src/lib/config.js`: resolves the
remote storage record from the active configuration source, then
auto-derives `s3ForcePathStyle` when an endpoint is set and the flag was
not explicitly set. -/
def getS3Config (st : ConfigState) (env : EnvVars) : S3Config :=
  let config : S3Config :=
    if st.configMode == "manual" then
      match st.manualS3 with
      | none =>
        { accessKeyId := none, secretAccessKey := none, region := "us-east-1", bucket := none,
          prefixStr := "", endpoint := none, s3ForcePathStyle := false }
      | some c => c
    else
      { accessKeyId := env.awsAccessKeyId,
        secretAccessKey := env.awsSecretAccessKey,
        region := orDefault env.awsRegion "us-east-1",
        bucket := env.awsS3Bucket,
        prefixStr := (env.awsS3PrefixStr).getD "",
        endpoint := env.awsS3Endpoint,
        s3ForcePathStyle := env.awsS3ForcePathStyle == some "true" }
  if strTruthy config.endpoint && !config.s3ForcePathStyle then
    { config with s3ForcePathStyle := shouldForcePathStyle config.endpoint }
  else config

/-- Embedding of `isS3Configured` from `src/lib/storage/s3.js`: true iff
access key, secret and bucket are all present. -/
def isS3Configured (st : ConfigState) (env : EnvVars) : Bool :=
  let config := getS3Config st env
  strTruthy config.accessKeyId && strTruthy config.secretAccessKey && strTruthy config.bucket

/-- Embedding of `setConfigMode` from `src/lib/config.js`: rejects mode
strings other than `env` and `manual`, and otherwise switches the mode.
There is no mode guard: switching is allowed from either mode. -/
def setConfigMode (st : ConfigState) (mode : String) : ConfigState × Except ConfigError String :=
  if !(mode == "env") && !(mode == "manual") then
    (st, .error .invalidModeValue)
  else ({ st with configMode := mode }, .ok mode)

/-- The `excludeTables` request field accepted by
`setManualDatabaseConfig`: either a comma-separated string or an array. -/
inductive ExcludeTablesInput
  | fromString (s : String)
  | fromList (l : List String)
deriving DecidableEq

/-- The request body accepted by `setManualDatabaseConfig`. -/
structure DbConfigInput where
  host : String
  port : Option Nat
  user : String
  password : Option String
  database : String
  schema : Option String
  excludeTables : Option ExcludeTablesInput
deriving DecidableEq

/-- Embedding of `setManualDatabaseConfig` from `src/lib/config.js`:
fails with `invalidModeOperation` unless manual mode is active, validates
required fields, parses `excludeTables`, and stores the record. -/
def setManualDatabaseConfig (st : ConfigState) (config : DbConfigInput) :
    ConfigState × Except ConfigError DbConfig :=
  if !(st.configMode == "manual") then (st, .error .invalidModeOperation)
  else if config.host == "" || config.user == "" || config.database == "" then
    (st, .error .requiredFieldsMissing)
  else
    let excludeTables : List String :=
      match config.excludeTables with
      | none => []
      | some (.fromString s) => ((s.splitOn ",").map String.trim).filter fun t => !(t == "")
      | some (.fromList l) => l
    let db : DbConfig :=
      { host := config.host,
        port := match config.port with | some p => if p == 0 then 5432 else p | none => 5432,
        user := config.user,
        password := (config.password).getD "",
        database := config.database,
        schema := orNull config.schema,
        excludeTables := excludeTables }
    ({ st with manualDatabase := some db }, .ok db)

/-- The request body accepted by `setManualBackupConfig`. -/
structure BackupConfigInput where
  auto : Option Bool
  schedule : Option String
  retentionDays : Option Nat
  storage : Option String
  localPath : Option String
  format : Option String
deriving DecidableEq

/-- Embedding of `setManualBackupConfig` from `src/lib/config.js`: fails
with `invalidModeOperation` unless manual mode is active, and stores the
record with the documented defaults for missing fields. -/
def setManualBackupConfig (st : ConfigState) (config : BackupConfigInput) :
    ConfigState × Except ConfigError BackupConfig :=
  if !(st.configMode == "manual") then (st, .error .invalidModeOperation)
  else
    let backup : BackupConfig :=
      { auto := (config.auto).getD false,
        schedule := orDefault config.schedule "0 2 * * *",
        retentionDays :=
          match config.retentionDays with | some d => if d == 0 then 7 else d | none => 7,
        storage := orDefault config.storage "local",
        localPath := orDefault config.localPath "./backups",
        format := orDefault config.format "sql" }
    ({ st with manualBackup := some backup }, .ok backup)

/-- The request body accepted by `setManualS3Config`. The source calls
the key prefix field `prefix`, which is renamed `prefixStr` here. -/
structure S3ConfigInput where
  accessKeyId : Option String
  secretAccessKey : Option String
  region : Option String
  bucket : Option String
  prefixStr : Option String
  endpoint : Option String
  s3ForcePathStyle : Option Bool
deriving DecidableEq

/-- Embedding of `setManualS3Config` from `src/lib/config.js`: fails with
`invalidModeOperation` unless manual mode is active, requires key and
bucket together, auto-derives the path style flag from the endpoint when
it was not explicitly set, and stores the record. -/
def setManualS3Config (st : ConfigState) (config : S3ConfigInput) :
    ConfigState × Except ConfigError S3Config :=
  if !(st.configMode == "manual") then (st, .error .invalidModeOperation)
  else if (strTruthy config.accessKeyId || strTruthy config.bucket) &&
      !(strTruthy config.accessKeyId && strTruthy config.bucket) then
    (st, .error .requiredFieldsMissing)
  else
    let flag0 := (config.s3ForcePathStyle).getD false
    let forcePathStyle :=
      if strTruthy config.endpoint && !flag0 then shouldForcePathStyle config.endpoint
      else flag0
    let s3 : S3Config :=
      { accessKeyId := orNull config.accessKeyId,
        secretAccessKey := orNull config.secretAccessKey,
        region := orDefault config.region "us-east-1",
        bucket := orNull config.bucket,
        prefixStr := (config.prefixStr).getD "",
        endpoint := orNull config.endpoint,
        s3ForcePathStyle := forcePathStyle }
    ({ st with manualS3 := some s3 }, .ok s3)

/-- Embedding of `resetManualConfig` from `src/lib/config.js`: fails with
`invalidModeOperation` unless manual mode is active, and otherwise clears
all manual configuration records. -/
def resetManualConfig (st : ConfigState) : ConfigState × Except ConfigError Bool :=
  if !(st.configMode == "manual") then (st, .error .invalidModeOperation)
  else
    ({ st with manualDatabase := none, manualBackup := none, manualS3 := none }, .ok true)

/-- The location an artifact already in the merge map ends up with after
all remote entries have been folded in: upgraded to `both` when its
filename also occurs remotely. -/
def locationUpdate (remoteNames : List String) (a : Artifact) : Artifact :=
  if a.filename ∈ remoteNames then { a with location := "both" } else a

/-- The local listing actually consulted by `listAllBackups` for a given
storage mode. -/
def selectedLocalBackups (storage : String) (localFiles : List StoredFile) : List Artifact :=
  if storage == "local" || storage == "both" then listLocalBackups localFiles else []

/-- The remote listing actually consulted by `listAllBackups` for a given
storage mode and S3 configuration state. -/
def selectedRemoteBackups (storage : String) (s3Configured : Bool)
    (remoteFiles : List StoredFile) : List Artifact :=
  if (storage == "remote" || storage == "both") && s3Configured then
    listS3Backups remoteFiles
  else []

/-- An environment with no variable set, used to instantiate theorems at
concrete inputs. -/
def emptyEnv : EnvVars :=
  { dbHost := none, dbPort := none, dbUser := none, dbPassword := none, dbName := none,
    dbSchema := none, dbExcludeTables := none, backupAuto := none, backupSchedule := none,
    backupRetentionDays := none, backupStorage := none, backupLocalPath := none,
    backupFormat := none, awsAccessKeyId := none, awsSecretAccessKey := none,
    awsRegion := none, awsS3Bucket := none, awsS3PrefixStr := none, awsS3Endpoint := none,
    awsS3ForcePathStyle := none }

/-- Concrete remote storage record used to instantiate the C7 theorem. -/
def c7cfg : S3Config :=
  { accessKeyId := none, secretAccessKey := none, region := "us-east-1", bucket := none,
    prefixStr := "", endpoint := some "https://abc.supabase.co/storage/v1/s3",
    s3ForcePathStyle := false }

/-- Concrete configuration state used to instantiate the C7 theorem. -/
def c7st : ConfigState :=
  { configMode := "manual", manualDatabase := none, manualBackup := none,
    manualS3 := some c7cfg }

/-- The artifact produced by the local listing for a stored file. -/
def localArtifact (f : StoredFile) : Artifact :=
  { filename := f.name, size := f.size, date := f.mtime, location := "local",
    format := some (if strEndsWith f.name ".dump" then "dump" else "sql") }

/-- The artifact produced by the remote listing for a stored object. -/
def remoteArtifact (o : StoredFile) : Artifact :=
  { filename := o.name, size := o.size, date := o.mtime, location := "remote",
    format := none }

theorem splitOnChar_ne_nil (sep : Char) (l : List Char) : splitOnChar sep l ≠ [] := by
  cases l with
  | nil => simp [splitOnChar]
  | cons c cs =>
    simp only [splitOnChar]
    rcases h : splitOnChar sep cs with _ | ⟨h1, t1⟩
    · simp
    · by_cases hc : c == sep <;> simp [hc]

theorem not_sep_mem_of_mem_splitOnChar (sep : Char) (l : List Char) (p : List Char)
    (hp : p ∈ splitOnChar sep l) : sep ∉ p := by
  induction l generalizing p with
  | nil => simp [splitOnChar] at hp; simp [hp]
  | cons c cs ih =>
    rcases h : splitOnChar sep cs with _ | ⟨h1, t1⟩
    · exact absurd h (splitOnChar_ne_nil sep cs)
    · simp only [splitOnChar, h] at hp
      by_cases hc : (c == sep) = true
      · rw [if_pos hc] at hp
        rcases List.mem_cons.mp hp with hp | hp
        · simp [hp]
        · exact ih p (h ▸ hp)
      · rw [if_neg hc] at hp
        rcases List.mem_cons.mp hp with hp | hp
        · subst hp
          intro hmem
          rcases List.mem_cons.mp hmem with h1e | h2
          · exact hc (by simp [h1e])
          · exact ih h1 (h ▸ List.mem_cons_self _ _) h2
        · exact ih p (h ▸ List.mem_cons_of_mem _ hp)

theorem splitOnChar_of_not_mem (sep : Char) (l : List Char) (h : sep ∉ l) :
    splitOnChar sep l = [l] := by
  induction l with
  | nil => rfl
  | cons c cs ih =>
    have hc : ¬(c == sep) = true := by
      simp only [beq_iff_eq]
      intro hcc
      exact h (by simp [hcc])
    have hcs : sep ∉ cs := fun hm => h (List.mem_cons_of_mem _ hm)
    simp only [splitOnChar, ih hcs, hc, if_neg, Bool.false_eq_true, not_false_iff]

theorem getLastD_mem_of_ne_nil {α : Type} (l : List α) (d : α) (h : l ≠ []) :
    l.getLastD d ∈ l := by
  induction l with
  | nil => exact absurd rfl h
  | cons a t ih =>
    cases t with
    | nil => simp [List.getLastD]
    | cons b u =>
      have := ih (by simp)
      simp only [List.getLastD] at this ⊢
      exact List.mem_cons_of_mem _ this

/-- Recovers a string from its character data. -/
theorem string_mk_data (s : String) : String.mk s.data = s := by
  cases s
  rfl

theorem splitPath_ne_nil (s : String) : splitPath s ≠ [] := by
  simp only [splitPath, ne_eq, List.map_eq_nil_iff]
  exact splitOnChar_ne_nil '/' s.data

theorem pathBasename_no_slash (s : String) : '/' ∉ (pathBasename s).data := by
  have hmem : pathBasename s ∈ splitPath s :=
    getLastD_mem_of_ne_nil _ _ (splitPath_ne_nil s)
  simp only [splitPath, List.mem_map] at hmem
  obtain ⟨p, hp, hpe⟩ := hmem
  have hns := not_sep_mem_of_mem_splitOnChar '/' s.data p hp
  rw [← hpe]
  exact hns

theorem pathBasename_eq_self (s : String) (h : '/' ∉ s.data) : pathBasename s = s := by
  simp [pathBasename, splitPath, splitOnChar_of_not_mem '/' s.data h, string_mk_data]

theorem splitPath_no_slash (s : String) (h : '/' ∉ s.data) : splitPath s = [s] := by
  simp [splitPath, splitOnChar_of_not_mem '/' s.data h, string_mk_data]

theorem normalizePath_append_single (cs : List String) (comp : String)
    (h0 : comp ≠ "") (h1 : comp ≠ ".") (h2 : comp ≠ "..") :
    normalizePath (cs ++ [comp]) = normalizePath cs ++ [comp] := by
  simp only [normalizePath, List.foldl_append, List.foldl_cons, List.foldl_nil]
  simp [normStep, h0, h1, h2]

theorem mem_backupNames {n : String} {l : List Artifact} :
    n ∈ backupNames l ↔ ∃ a ∈ l, a.filename = n := by
  simp [backupNames]

theorem mem_storedNames {n : String} {l : List StoredFile} :
    n ∈ storedNames l ↔ ∃ f ∈ l, f.name = n := by
  simp [storedNames]

theorem backupNames_map_preserve (l : List Artifact) (f : Artifact → Artifact)
    (h : ∀ a, (f a).filename = a.filename) : backupNames (l.map f) = backupNames l := by
  simp only [backupNames, List.map_map]
  exact List.map_congr_left fun a _ => h a

theorem backupNames_append (l₁ l₂ : List Artifact) :
    backupNames (l₁ ++ l₂) = backupNames l₁ ++ backupNames l₂ := by
  simp [backupNames]

theorem mergeStep_of_mem (acc : List Artifact) (b : Artifact)
    (h : b.filename ∈ backupNames acc) :
    mergeStep acc b = acc.map fun a =>
      if a.filename == b.filename then { a with location := "both" } else a := by
  unfold mergeStep
  rw [if_pos]
  obtain ⟨a, ha, hae⟩ := mem_backupNames.mp h
  simp only [List.any_eq_true, beq_iff_eq]
  exact ⟨a, ha, hae⟩

theorem mergeStep_of_not_mem (acc : List Artifact) (b : Artifact)
    (h : b.filename ∉ backupNames acc) :
    mergeStep acc b = acc ++ [{ b with location := "remote" }] := by
  unfold mergeStep
  rw [if_neg]
  intro hany
  rw [List.any_eq_true] at hany
  obtain ⟨a, ha, hae⟩ := hany
  exact h (mem_backupNames.mpr ⟨a, ha, beq_iff_eq.mp hae⟩)

theorem filename_locationUpdate (remoteNames : List String) (a : Artifact) :
    (locationUpdate remoteNames a).filename = a.filename := by
  unfold locationUpdate
  split <;> rfl

theorem foldl_mergeStep_eq (rs : List Artifact) (acc : List Artifact)
    (hrs : (backupNames rs).Nodup) :
    rs.foldl mergeStep acc =
      acc.map (locationUpdate (backupNames rs)) ++
        (rs.filter fun b => decide (b.filename ∉ backupNames acc)).map
          fun b => { b with location := "remote" } := by
  induction rs generalizing acc with
  | nil =>
    simp only [List.foldl_nil, List.filter_nil, List.map_nil, List.append_nil]
    have hid : ∀ a ∈ acc, locationUpdate (backupNames ([] : List Artifact)) a = a := by
      intro a _
      simp [locationUpdate, backupNames]
    rw [List.map_congr_left hid]
    exact (List.map_id' acc).symm
  | cons b rs ih =>
    have hnames : backupNames (b :: rs) = b.filename :: backupNames rs := by
      simp [backupNames]
    rw [hnames] at hrs ⊢
    have hbn : b.filename ∉ backupNames rs := (List.nodup_cons.mp hrs).1
    have hrs' : (backupNames rs).Nodup := (List.nodup_cons.mp hrs).2
    by_cases hmem : b.filename ∈ backupNames acc
    · rw [List.foldl_cons, mergeStep_of_mem acc b hmem, ih _ hrs']
      have hnacc : backupNames (acc.map fun a =>
          if a.filename == b.filename then { a with location := "both" } else a) =
          backupNames acc := by
        apply backupNames_map_preserve
        intro a
        split <;> rfl
      rw [hnacc]
      congr 1
      · rw [List.map_map]
        apply List.map_congr_left
        intro a _
        simp only [Function.comp_apply, locationUpdate, List.mem_cons, beq_iff_eq]
        by_cases hfe : a.filename = b.filename
        · simp only [hfe, if_pos, ite_true, or_true, true_or]
          by_cases hr : b.filename ∈ backupNames rs <;> simp [hr]
        · simp only [hfe, ite_false]
          by_cases hr : a.filename ∈ backupNames rs <;> simp [locationUpdate, hr, hfe]
      · have hfil : (b :: rs).filter (fun x => decide (x.filename ∉ backupNames acc)) =
            rs.filter fun x => decide (x.filename ∉ backupNames acc) := by
          rw [List.filter_cons]
          simp [hmem]
        rw [hfil]
    · rw [List.foldl_cons, mergeStep_of_not_mem acc b hmem, ih _ hrs']
      have hnacc : backupNames (acc ++ [{ b with location := "remote" }]) =
          backupNames acc ++ [b.filename] := by
        rw [backupNames_append]
        rfl
      rw [hnacc]
      have hmapb : locationUpdate (backupNames rs) { b with location := "remote" } =
          { b with location := "remote" } := by
        simp [locationUpdate, hbn]
      have hfilcong : (rs.filter fun x =>
          decide (x.filename ∉ backupNames acc ++ [b.filename])) =
          rs.filter fun x => decide (x.filename ∉ backupNames acc) := by
        apply List.filter_congr
        intro x hx
        have hxn : x.filename ≠ b.filename := by
          intro hxe
          exact hbn (hxe ▸ mem_backupNames.mpr ⟨x, hx, rfl⟩)
        simp [List.mem_append, hxn]
      have hmapcong : acc.map (locationUpdate (b.filename :: backupNames rs)) =
          acc.map (locationUpdate (backupNames rs)) := by
        apply List.map_congr_left
        intro a ha
        have han : a.filename ≠ b.filename := by
          intro hae
          exact hmem (hae ▸ mem_backupNames.mpr ⟨a, ha, rfl⟩)
        simp [locationUpdate, List.mem_cons, han]
      have hfilb : (b :: rs).filter (fun x => decide (x.filename ∉ backupNames acc)) =
          b :: rs.filter fun x => decide (x.filename ∉ backupNames acc) := by
        rw [List.filter_cons]
        simp [hmem]
      rw [List.map_append, hfilcong, hmapcong, hfilb]
      simp [hmapb, List.append_assoc]

theorem mergeBackups_eq (L R : List Artifact) (hR : (backupNames R).Nodup) :
    mergeBackups L R =
      L.map (fun a =>
        if a.filename ∈ backupNames R then { a with location := "both" }
        else { a with location := "local" }) ++
      (R.filter fun b => decide (b.filename ∉ backupNames L)).map
        fun b => { b with location := "remote" } := by
  unfold mergeBackups
  rw [foldl_mergeStep_eq R _ hR]
  have hn : backupNames (L.map fun a => { a with location := "local" }) = backupNames L := by
    apply backupNames_map_preserve
    intro a
    rfl
  rw [hn]
  congr 1
  rw [List.map_map]
  apply List.map_congr_left
  intro a _
  simp only [Function.comp_apply, locationUpdate]

theorem listAllBackups_eq (storage : String) (s3Configured : Bool)
    (localFiles remoteFiles : List StoredFile) :
    listAllBackups storage s3Configured localFiles remoteFiles =
      List.insertionSort (fun a b => b.date ≤ a.date)
        (mergeBackups (selectedLocalBackups storage localFiles)
          (selectedRemoteBackups storage s3Configured remoteFiles)) := rfl

theorem listAllBackups_perm (storage : String) (s3Configured : Bool)
    (localFiles remoteFiles : List StoredFile) :
    List.Perm (listAllBackups storage s3Configured localFiles remoteFiles)
      (mergeBackups (selectedLocalBackups storage localFiles)
        (selectedRemoteBackups storage s3Configured remoteFiles)) :=
  List.perm_insertionSort _ _

theorem listAllBackups_sorted (storage : String) (s3Configured : Bool)
    (localFiles remoteFiles : List StoredFile) :
    (listAllBackups storage s3Configured localFiles remoteFiles).Sorted
      fun a b => b.date ≤ a.date :=
  List.sorted_insertionSort _ _

theorem mem_listLocalBackups {a : Artifact} {files : List StoredFile} :
    a ∈ listLocalBackups files ↔
      ∃ f ∈ files, (strEndsWith f.name ".sql" || strEndsWith f.name ".dump") = true ∧
        a = { filename := f.name, size := f.size, date := f.mtime, location := "local",
              format := some (if strEndsWith f.name ".dump" then "dump" else "sql") } := by
  simp only [listLocalBackups, List.mem_map, List.mem_filter]
  constructor
  · rintro ⟨f, ⟨hf, hext⟩, rfl⟩
    exact ⟨f, hf, hext, rfl⟩
  · rintro ⟨f, hf, hext, rfl⟩
    exact ⟨f, ⟨hf, hext⟩, rfl⟩

theorem mem_listS3Backups {a : Artifact} {s3Objects : List StoredFile} :
    a ∈ listS3Backups s3Objects ↔
      ∃ o ∈ s3Objects, strStartsWith o.name "backup_" = true ∧
        a = { filename := o.name, size := o.size, date := o.mtime, location := "remote",
              format := none } := by
  simp only [listS3Backups, List.mem_map, List.mem_filter]
  constructor
  · rintro ⟨o, ⟨ho, hpre⟩, rfl⟩
    exact ⟨o, ho, hpre, rfl⟩
  · rintro ⟨o, ho, hpre, rfl⟩
    exact ⟨o, ⟨ho, hpre⟩, rfl⟩

theorem backupNames_listLocalBackups (files : List StoredFile) :
    backupNames (listLocalBackups files) =
      (files.filter fun f => strEndsWith f.name ".sql" || strEndsWith f.name ".dump").map
        StoredFile.name := by
  simp only [listLocalBackups, backupNames, List.map_map]
  rfl

theorem backupNames_listS3Backups (s3Objects : List StoredFile) :
    backupNames (listS3Backups s3Objects) =
      (s3Objects.filter fun o => strStartsWith o.name "backup_").map StoredFile.name := by
  simp only [listS3Backups, backupNames, List.map_map]
  rfl

theorem nodup_backupNames_listLocalBackups (files : List StoredFile)
    (h : (storedNames files).Nodup) : (backupNames (listLocalBackups files)).Nodup := by
  rw [backupNames_listLocalBackups]
  exact List.Nodup.sublist (List.Sublist.map _ (List.filter_sublist _)) h

theorem nodup_backupNames_listS3Backups (s3Objects : List StoredFile)
    (h : (storedNames s3Objects).Nodup) : (backupNames (listS3Backups s3Objects)).Nodup := by
  rw [backupNames_listS3Backups]
  exact List.Nodup.sublist (List.Sublist.map _ (List.filter_sublist _)) h

theorem mem_mergeBackups_iff (L R : List Artifact) (hR : (backupNames R).Nodup)
    (a : Artifact) :
    a ∈ mergeBackups L R ↔
      (∃ x ∈ L, x.filename ∉ backupNames R ∧ a = { x with location := "local" }) ∨
      (∃ x ∈ L, x.filename ∈ backupNames R ∧ a = { x with location := "both" }) ∨
      (∃ x ∈ R, x.filename ∉ backupNames L ∧ a = { x with location := "remote" }) := by
  rw [mergeBackups_eq L R hR]
  constructor
  · intro h
    rcases List.mem_append.mp h with h | h
    · obtain ⟨x, hx, hxe⟩ := List.mem_map.mp h
      by_cases hmem : x.filename ∈ backupNames R
      · right; left
        exact ⟨x, hx, hmem, by rw [← hxe, if_pos hmem]⟩
      · left
        exact ⟨x, hx, hmem, by rw [← hxe, if_neg hmem]⟩
    · obtain ⟨x, hx, hxe⟩ := List.mem_map.mp h
      have hx' := List.mem_filter.mp hx
      right; right
      exact ⟨x, hx'.1, by simpa using hx'.2, hxe.symm⟩
  · intro h
    rcases h with ⟨x, hx, hmem, rfl⟩ | ⟨x, hx, hmem, rfl⟩ | ⟨x, hx, hmem, rfl⟩
    · exact List.mem_append_left _ (List.mem_map.mpr ⟨x, hx, by rw [if_neg hmem]⟩)
    · exact List.mem_append_left _ (List.mem_map.mpr ⟨x, hx, by rw [if_pos hmem]⟩)
    · exact List.mem_append_right _
        (List.mem_map.mpr ⟨x, List.mem_filter.mpr ⟨hx, by simpa using hmem⟩, rfl⟩)

theorem nodup_backupNames_mergeBackups (L R : List Artifact)
    (hL : (backupNames L).Nodup) (hR : (backupNames R).Nodup) :
    (backupNames (mergeBackups L R)).Nodup := by
  rw [mergeBackups_eq L R hR, backupNames_append]
  have hmapL : backupNames (L.map fun a =>
      if a.filename ∈ backupNames R then { a with location := "both" }
      else { a with location := "local" }) = backupNames L := by
    apply backupNames_map_preserve
    intro a
    split <;> rfl
  have hmapR : backupNames ((R.filter fun b =>
      decide (b.filename ∉ backupNames L)).map fun b => { b with location := "remote" }) =
      backupNames (R.filter fun b => decide (b.filename ∉ backupNames L)) := by
    apply backupNames_map_preserve
    intro b
    rfl
  rw [hmapL, hmapR]
  apply List.Nodup.append hL
  · exact List.Nodup.sublist (List.Sublist.map _ (List.filter_sublist _)) hR
  · intro n hnL hnR
    obtain ⟨b, hb, hbe⟩ := mem_backupNames.mp hnR
    have := (List.mem_filter.mp hb).2
    rw [decide_eq_true_iff] at this
    exact this (hbe ▸ hnL)

theorem eq_of_mem_of_nodup_backupNames {l : List Artifact} (h : (backupNames l).Nodup)
    {a b : Artifact} (ha : a ∈ l) (hb : b ∈ l) (he : a.filename = b.filename) : a = b :=
  List.inj_on_of_nodup_map h ha hb he

theorem retentionStep_expired (retentionDate : Int) (st : ArchState) (n : Nat) (b : Artifact)
    (hd : b.date < retentionDate) :
    retentionStep retentionDate (st, n) b =
      ({ localFiles :=
           if b.location == "local" || b.location == "both" then
             deleteLocalBackup b.filename st.localFiles
           else st.localFiles,
         remoteFiles :=
           if b.location == "remote" || b.location == "both" then
             deleteFromS3 b.filename st.remoteFiles
           else st.remoteFiles }, n + 1) := by
  unfold retentionStep
  rw [if_pos hd]
  by_cases hl : (b.location == "local" || b.location == "both") = true <;>
    by_cases hr : (b.location == "remote" || b.location == "both") = true <;>
      simp [hl, hr]

theorem retentionStep_kept (retentionDate : Int) (st : ArchState) (n : Nat) (b : Artifact)
    (hd : ¬b.date < retentionDate) :
    retentionStep retentionDate (st, n) b = (st, n) := by
  unfold retentionStep
  rw [if_neg hd]

theorem foldl_retentionStep_count (retentionDate : Int) (l : List Artifact) :
    ∀ (st : ArchState) (n : Nat),
      (l.foldl (retentionStep retentionDate) (st, n)).2 =
        n + l.countP fun b => decide (b.date < retentionDate) := by
  induction l with
  | nil => intro st n; simp
  | cons b l ih =>
    intro st n
    rw [List.foldl_cons]
    by_cases hd : b.date < retentionDate
    · rw [retentionStep_expired _ _ _ _ hd, ih, List.countP_cons, decide_eq_true hd,
        if_pos rfl]
      omega
    · rw [retentionStep_kept _ _ _ _ hd, ih, List.countP_cons]
      simp [hd]

theorem retentionDeletedLocalNames_cons_expired_local (retentionDate : Int) (b : Artifact)
    (l : List Artifact) (hd : b.date < retentionDate)
    (hl : (b.location == "local" || b.location == "both") = true) :
    retentionDeletedLocalNames retentionDate (b :: l) =
      pathBasename b.filename :: retentionDeletedLocalNames retentionDate l := by
  unfold retentionDeletedLocalNames
  rw [List.filter_cons]
  simp [hd, hl]

theorem retentionDeletedLocalNames_cons_other (retentionDate : Int) (b : Artifact)
    (l : List Artifact)
    (h : ¬(decide (b.date < retentionDate) &&
      (b.location == "local" || b.location == "both")) = true) :
    retentionDeletedLocalNames retentionDate (b :: l) =
      retentionDeletedLocalNames retentionDate l := by
  unfold retentionDeletedLocalNames
  rw [List.filter_cons]
  simp [h]

theorem retentionDeletedRemoteNames_cons_expired_remote (retentionDate : Int) (b : Artifact)
    (l : List Artifact) (hd : b.date < retentionDate)
    (hr : (b.location == "remote" || b.location == "both") = true) :
    retentionDeletedRemoteNames retentionDate (b :: l) =
      b.filename :: retentionDeletedRemoteNames retentionDate l := by
  unfold retentionDeletedRemoteNames
  rw [List.filter_cons]
  simp [hd, hr]

theorem retentionDeletedRemoteNames_cons_other (retentionDate : Int) (b : Artifact)
    (l : List Artifact)
    (h : ¬(decide (b.date < retentionDate) &&
      (b.location == "remote" || b.location == "both")) = true) :
    retentionDeletedRemoteNames retentionDate (b :: l) =
      retentionDeletedRemoteNames retentionDate l := by
  unfold retentionDeletedRemoteNames
  rw [List.filter_cons]
  simp [h]

theorem filter_not_mem_cons (files : List StoredFile) (m : String) (ms : List String) :
    (files.filter fun f => !(f.name == m)).filter (fun f => decide (f.name ∉ ms)) =
      files.filter fun f => decide (f.name ∉ m :: ms) := by
  rw [List.filter_filter]
  apply List.filter_congr
  intro f _
  by_cases h1 : f.name = m <;> by_cases h2 : f.name ∈ ms <;>
    simp [h1, h2, List.mem_cons]

theorem foldl_retentionStep_localFiles (retentionDate : Int) (l : List Artifact) :
    ∀ (st : ArchState) (n : Nat),
      (l.foldl (retentionStep retentionDate) (st, n)).1.localFiles =
        st.localFiles.filter fun f =>
          decide (f.name ∉ retentionDeletedLocalNames retentionDate l) := by
  induction l with
  | nil =>
    intro st n
    symm
    apply List.filter_eq_self.mpr
    intro f _
    simp [retentionDeletedLocalNames]
  | cons b l ih =>
    intro st n
    rw [List.foldl_cons]
    by_cases hd : b.date < retentionDate
    · rw [retentionStep_expired _ _ _ _ hd, ih]
      by_cases hl : (b.location == "local" || b.location == "both") = true
      · rw [if_pos hl, retentionDeletedLocalNames_cons_expired_local _ _ _ hd hl]
        unfold deleteLocalBackup
        exact filter_not_mem_cons _ _ _
      · rw [if_neg hl, retentionDeletedLocalNames_cons_other]
        simp [hl]
    · rw [retentionStep_kept _ _ _ _ hd, ih, retentionDeletedLocalNames_cons_other]
      simp [hd]

theorem foldl_retentionStep_remoteFiles (retentionDate : Int) (l : List Artifact) :
    ∀ (st : ArchState) (n : Nat),
      (l.foldl (retentionStep retentionDate) (st, n)).1.remoteFiles =
        st.remoteFiles.filter fun f =>
          decide (f.name ∉ retentionDeletedRemoteNames retentionDate l) := by
  induction l with
  | nil =>
    intro st n
    symm
    apply List.filter_eq_self.mpr
    intro f _
    simp [retentionDeletedRemoteNames]
  | cons b l ih =>
    intro st n
    rw [List.foldl_cons]
    by_cases hd : b.date < retentionDate
    · rw [retentionStep_expired _ _ _ _ hd, ih]
      by_cases hr : (b.location == "remote" || b.location == "both") = true
      · rw [if_pos hr, retentionDeletedRemoteNames_cons_expired_remote _ _ _ hd hr]
        unfold deleteFromS3
        exact filter_not_mem_cons _ _ _
      · rw [if_neg hr, retentionDeletedRemoteNames_cons_other]
        simp [hr]
    · rw [retentionStep_kept _ _ _ _ hd, ih, retentionDeletedRemoteNames_cons_other]
      simp [hd]

theorem applyRetentionPolicy_count (storage : String) (s3Configured : Bool)
    (retentionDays : Nat) (now : Int) (st : ArchState) :
    (applyRetentionPolicy storage s3Configured retentionDays now st).2 =
      (listAllBackups storage s3Configured st.localFiles st.remoteFiles).countP
        fun b => decide (b.date < now - retentionDays) := by
  unfold applyRetentionPolicy
  rw [foldl_retentionStep_count]
  omega

theorem applyRetentionPolicy_localFiles (storage : String) (s3Configured : Bool)
    (retentionDays : Nat) (now : Int) (st : ArchState) :
    (applyRetentionPolicy storage s3Configured retentionDays now st).1.localFiles =
      st.localFiles.filter fun f =>
        decide (f.name ∉ retentionDeletedLocalNames (now - retentionDays)
          (listAllBackups storage s3Configured st.localFiles st.remoteFiles)) := by
  unfold applyRetentionPolicy
  rw [foldl_retentionStep_localFiles]

theorem applyRetentionPolicy_remoteFiles (storage : String) (s3Configured : Bool)
    (retentionDays : Nat) (now : Int) (st : ArchState) :
    (applyRetentionPolicy storage s3Configured retentionDays now st).1.remoteFiles =
      st.remoteFiles.filter fun f =>
        decide (f.name ∉ retentionDeletedRemoteNames (now - retentionDays)
          (listAllBackups storage s3Configured st.localFiles st.remoteFiles)) := by
  unfold applyRetentionPolicy
  rw [foldl_retentionStep_remoteFiles]

theorem statsStep_local (stats : BackupStats) (b : Artifact)
    (h : (b.location == "local") = true) :
    statsStep stats b =
      { stats with totalSize := stats.totalSize + b.size,
                   localCount := stats.localCount + 1 } := by
  simp [statsStep, h]

theorem statsStep_remote (stats : BackupStats) (b : Artifact)
    (h1 : ¬(b.location == "local") = true) (h2 : (b.location == "remote") = true) :
    statsStep stats b =
      { stats with totalSize := stats.totalSize + b.size,
                   remoteCount := stats.remoteCount + 1 } := by
  simp [statsStep, h1, h2]

theorem statsStep_both (stats : BackupStats) (b : Artifact)
    (h1 : ¬(b.location == "local") = true) (h2 : ¬(b.location == "remote") = true)
    (h3 : (b.location == "both") = true) :
    statsStep stats b =
      { stats with totalSize := stats.totalSize + b.size,
                   localCount := stats.localCount + 1,
                   remoteCount := stats.remoteCount + 1 } := by
  simp [statsStep, h1, h2, h3]

theorem statsStep_other (stats : BackupStats) (b : Artifact)
    (h1 : ¬(b.location == "local") = true) (h2 : ¬(b.location == "remote") = true)
    (h3 : ¬(b.location == "both") = true) :
    statsStep stats b = { stats with totalSize := stats.totalSize + b.size } := by
  simp [statsStep, h1, h2, h3]

theorem foldl_statsStep (l : List Artifact) :
    ∀ (t lc rc sz : Nat),
      l.foldl statsStep { total := t, localCount := lc, remoteCount := rc, totalSize := sz } =
        { total := t,
          localCount := lc + (l.countP fun b => b.location == "local" || b.location == "both"),
          remoteCount := rc + (l.countP fun b => b.location == "remote" || b.location == "both"),
          totalSize := sz + (l.map Artifact.size).sum } := by
  induction l with
  | nil => intro t lc rc sz; simp
  | cons b l ih =>
    intro t lc rc sz
    rw [List.foldl_cons]
    by_cases h1 : (b.location == "local") = true
    · rw [statsStep_local _ _ h1, ih, List.countP_cons, List.countP_cons]
      have hb : (b.location == "remote" || b.location == "both") = false := by
        rw [beq_iff_eq] at h1
        simp [h1]
      simp [h1, hb]
      omega
    · by_cases h2 : (b.location == "remote") = true
      · rw [statsStep_remote _ _ h1 h2, ih, List.countP_cons, List.countP_cons]
        have hb : (b.location == "local" || b.location == "both") = false := by
          rw [beq_iff_eq] at h2
          simp [h2]
        simp [h2, hb]
        omega
      · by_cases h3 : (b.location == "both") = true
        · rw [statsStep_both _ _ h1 h2 h3, ih, List.countP_cons, List.countP_cons]
          simp [h3]
          omega
        · rw [statsStep_other _ _ h1 h2 h3, ih, List.countP_cons, List.countP_cons]
          simp [h1, h2, h3]
          omega

theorem getBackupStats_eq (storage : String) (s3Configured : Bool)
    (localFiles remoteFiles : List StoredFile) :
    getBackupStats storage s3Configured localFiles remoteFiles =
      { total := (listAllBackups storage s3Configured localFiles remoteFiles).length,
        localCount := (listAllBackups storage s3Configured localFiles remoteFiles).countP
          fun b => b.location == "local" || b.location == "both",
        remoteCount := (listAllBackups storage s3Configured localFiles remoteFiles).countP
          fun b => b.location == "remote" || b.location == "both",
        totalSize :=
          ((listAllBackups storage s3Configured localFiles remoteFiles).map
            Artifact.size).sum } := by
  unfold getBackupStats
  rw [foldl_statsStep]
  simp

theorem countP_local_or_both_mergeBackups (L R : List Artifact)
    (hR : (backupNames R).Nodup) :
    ((mergeBackups L R).countP fun b => b.location == "local" || b.location == "both") =
      L.length := by
  rw [mergeBackups_eq _ _ hR, List.countP_append]
  have h1 : ((L.map fun a =>
      if a.filename ∈ backupNames R then { a with location := "both" }
      else { a with location := "local" }).countP
        fun b => b.location == "local" || b.location == "both") = L.length := by
    rw [List.countP_map, ← List.length_map L (fun a =>
      if a.filename ∈ backupNames R then { a with location := "both" }
      else { a with location := "local" })]
    rw [List.length_map]
    apply List.countP_eq_length.mpr
    intro a _
    by_cases hm : a.filename ∈ backupNames R <;> simp [Function.comp, hm]
  have h2 : (((R.filter fun b => decide (b.filename ∉ backupNames L)).map
      fun b => { b with location := "remote" }).countP
        fun b => b.location == "local" || b.location == "both") = 0 := by
    apply List.countP_eq_zero.mpr
    intro a ha
    obtain ⟨x, _, rfl⟩ := List.mem_map.mp ha
    simp
  rw [h1, h2]
  omega

theorem countP_remote_or_both_mergeBackups (L R : List Artifact)
    (hR : (backupNames R).Nodup) :
    ((mergeBackups L R).countP fun b => b.location == "remote" || b.location == "both") =
      (L.countP fun a => decide (a.filename ∈ backupNames R)) +
        (R.countP fun b => decide (b.filename ∉ backupNames L)) := by
  rw [mergeBackups_eq _ _ hR, List.countP_append]
  have h1 : ((L.map fun a =>
      if a.filename ∈ backupNames R then { a with location := "both" }
      else { a with location := "local" }).countP
        fun b => b.location == "remote" || b.location == "both") =
      L.countP fun a => decide (a.filename ∈ backupNames R) := by
    rw [List.countP_map]
    apply List.countP_congr
    intro a _
    by_cases hm : a.filename ∈ backupNames R <;> simp [Function.comp, hm]
  have h2 : (((R.filter fun b => decide (b.filename ∉ backupNames L)).map
      fun b => { b with location := "remote" }).countP
        fun b => b.location == "remote" || b.location == "both") =
      R.countP fun b => decide (b.filename ∉ backupNames L) := by
    rw [List.countP_map]
    have hall : List.countP ((fun b => b.location == "remote" || b.location == "both") ∘
        fun b => { b with location := "remote" })
        (R.filter fun b => decide (b.filename ∉ backupNames L)) =
        (R.filter fun b => decide (b.filename ∉ backupNames L)).length :=
      List.countP_eq_length.mpr fun a _ => by simp [Function.comp]
    rw [hall, List.countP_eq_length_filter]
  rw [h1, h2]

theorem countP_mem_names_comm (L R : List Artifact)
    (hL : (backupNames L).Nodup) (hR : (backupNames R).Nodup) :
    (L.countP fun a => decide (a.filename ∈ backupNames R)) =
      R.countP fun b => decide (b.filename ∈ backupNames L) := by
  have e1 : (L.countP fun a => decide (a.filename ∈ backupNames R)) =
      ((backupNames L).filter fun n => decide (n ∈ backupNames R)).length := by
    simp only [backupNames]
    rw [← List.countP_eq_length_filter, List.countP_map]
    rfl
  have e2 : (R.countP fun b => decide (b.filename ∈ backupNames L)) =
      ((backupNames R).filter fun n => decide (n ∈ backupNames L)).length := by
    simp only [backupNames]
    rw [← List.countP_eq_length_filter, List.countP_map]
    rfl
  rw [e1, e2]
  apply List.Perm.length_eq
  apply (List.perm_ext_iff_of_nodup (hL.filter _) (hR.filter _)).mpr
  intro n
  simp only [List.mem_filter, decide_eq_true_eq]
  exact and_comm

/-- Claim C6: in runtime-mutable (manual) mode with no values set,
including immediately after `resetManualConfig` clears them,
`getDatabaseConfig` fails with `configurationMissing`, whereas
`getBackupConfig` does not fail and returns the documented defaults:
schedule `0 2 * * *`, retentionDays 7, storage `local`, format `sql`. -/
theorem c6_manual_unset_database_fails_backup_defaults (env : EnvVars) (st : ConfigState)
    (hmode : st.configMode = "manual") (hdb : st.manualDatabase = none)
    (hbk : st.manualBackup = none) :
    getDatabaseConfig st env = .error .configurationMissing ∧
    getBackupConfig st env =
      { auto := false, schedule := "0 2 * * *", retentionDays := 7, storage := "local",
        localPath := "./backups", format := "sql" } ∧
    (∀ st' : ConfigState, st'.configMode = "manual" →
      getDatabaseConfig (resetManualConfig st').1 env = .error .configurationMissing ∧
      getBackupConfig (resetManualConfig st').1 env =
        { auto := false, schedule := "0 2 * * *", retentionDays := 7, storage := "local",
          localPath := "./backups", format := "sql" }) := by
  refine ⟨?_, ?_, ?_⟩
  · simp [getDatabaseConfig, hmode, hdb]
  · simp [getBackupConfig, hmode, hbk]
  · intro st' hmode'
    have hreset : (resetManualConfig st').1 =
        { st' with manualDatabase := none, manualBackup := none, manualS3 := none } := by
      simp [resetManualConfig, hmode']
    constructor
    · rw [hreset]
      simp [getDatabaseConfig, hmode']
    · rw [hreset]
      simp [getBackupConfig, hmode']

theorem c6_manual_unset_database_fails_backup_defaults_witness :
    (⟨"manual", none, none, none⟩ : ConfigState).configMode = "manual" ∧
    (⟨"manual", none, none, none⟩ : ConfigState).manualDatabase = none ∧
    (⟨"manual", none, none, none⟩ : ConfigState).manualBackup = none ∧
    (getDatabaseConfig ⟨"manual", none, none, none⟩ emptyEnv =
        .error .configurationMissing ∧
      getBackupConfig ⟨"manual", none, none, none⟩ emptyEnv =
        { auto := false, schedule := "0 2 * * *", retentionDays := 7, storage := "local",
          localPath := "./backups", format := "sql" } ∧
      (∀ st' : ConfigState, st'.configMode = "manual" →
        getDatabaseConfig (resetManualConfig st').1 emptyEnv =
          .error .configurationMissing ∧
        getBackupConfig (resetManualConfig st').1 emptyEnv =
          { auto := false, schedule := "0 2 * * *", retentionDays := 7, storage := "local",
            localPath := "./backups", format := "sql" })) :=
  ⟨rfl, rfl, rfl,
    c6_manual_unset_database_fails_backup_defaults emptyEnv ⟨"manual", none, none, none⟩
      rfl rfl rfl⟩

/-- Claim C7: when the caller did not explicitly set the path style flag
and the endpoint contains one of the known provider substrings,
`getS3Config` returns `s3ForcePathStyle = true`; with the endpoint
`https://s3.amazonaws.com` it returns `false`. Both the manual and the
environment configuration source are covered. -/
theorem c7_force_path_style_inference (st : ConfigState) (env : EnvVars) (cfg : S3Config)
    (e : String) (hmode : st.configMode = "manual") (hcfg : st.manualS3 = some cfg)
    (hflag : cfg.s3ForcePathStyle = false) (hend : cfg.endpoint = some e) (hne : e ≠ "")
    (hsvc : ∃ service ∈ forcePathStyleServices, strIncludes (toLowerString e) service = true) :
    (getS3Config st env).s3ForcePathStyle = true ∧
    (∀ env' : EnvVars, ∀ st'' : ConfigState, st''.configMode = "env" →
      env'.awsS3ForcePathStyle ≠ some "true" → env'.awsS3Endpoint = some e →
      (getS3Config st'' env').s3ForcePathStyle = true) ∧
    (∀ st' : ConfigState, ∀ cfg' : S3Config, st'.configMode = "manual" →
      st'.manualS3 = some cfg' → cfg'.s3ForcePathStyle = false →
      cfg'.endpoint = some "https://s3.amazonaws.com" →
      (getS3Config st' env).s3ForcePathStyle = false) := by
  have hshould : shouldForcePathStyle (some e) = true := by
    simp only [shouldForcePathStyle]
    rw [if_neg (by simpa using hne)]
    rw [List.any_eq_true]
    obtain ⟨service, hs, hinc⟩ := hsvc
    exact ⟨service, hs, hinc⟩
  refine ⟨?_, ?_, ?_⟩
  · have hm : (st.configMode == "manual") = true := by simp [hmode]
    have hcond : (strTruthy cfg.endpoint && !cfg.s3ForcePathStyle) = true := by
      rw [hend, hflag]
      simp [strTruthy, hne]
    simp only [getS3Config, if_pos hm, hcfg, hcond, if_true]
    simp only [hend]
    exact hshould
  · intro env' st'' hmode'' hnotset hend'
    have hnm : ¬(st''.configMode == "manual") = true := by simp [hmode'']
    have hflagenv : (env'.awsS3ForcePathStyle == some "true") = false := by
      rw [beq_eq_false_iff_ne]
      exact hnotset
    have hcond : (strTruthy env'.awsS3Endpoint && !(env'.awsS3ForcePathStyle == some "true"))
        = true := by
      rw [hend', hflagenv]
      simp [strTruthy, hne]
    simp only [getS3Config, if_neg hnm, hcond, if_true]
    simp only [hend']
    exact hshould
  · intro st' cfg' hmode' hcfg' hflag' hend'
    have hfalse : shouldForcePathStyle (some "https://s3.amazonaws.com") = false := by decide
    have hm : (st'.configMode == "manual") = true := by simp [hmode']
    have hcond : (strTruthy cfg'.endpoint && !cfg'.s3ForcePathStyle) = true := by
      rw [hend', hflag']
      simp [strTruthy]
    simp only [getS3Config, if_pos hm, hcfg', hcond, if_true]
    simp only [hend']
    exact hfalse

theorem c7_force_path_style_inference_witness :
    c7st.configMode = "manual" ∧ c7st.manualS3 = some c7cfg ∧
    c7cfg.s3ForcePathStyle = false ∧
    c7cfg.endpoint = some "https://abc.supabase.co/storage/v1/s3" ∧
    "https://abc.supabase.co/storage/v1/s3" ≠ "" ∧
    (∃ service ∈ forcePathStyleServices,
      strIncludes (toLowerString "https://abc.supabase.co/storage/v1/s3") service = true) ∧
    ((getS3Config c7st emptyEnv).s3ForcePathStyle = true ∧
      (∀ env' : EnvVars, ∀ st'' : ConfigState, st''.configMode = "env" →
        env'.awsS3ForcePathStyle ≠ some "true" →
        env'.awsS3Endpoint = some "https://abc.supabase.co/storage/v1/s3" →
        (getS3Config st'' env').s3ForcePathStyle = true) ∧
      (∀ st' : ConfigState, ∀ cfg' : S3Config, st'.configMode = "manual" →
        st'.manualS3 = some cfg' → cfg'.s3ForcePathStyle = false →
        cfg'.endpoint = some "https://s3.amazonaws.com" →
        (getS3Config st' emptyEnv).s3ForcePathStyle = false)) :=
  ⟨rfl, rfl, rfl, rfl, by decide, by decide,
    c7_force_path_style_inference c7st emptyEnv c7cfg
      "https://abc.supabase.co/storage/v1/s3" rfl rfl rfl rfl (by decide) (by decide)⟩

/-- Claim C8 (amended): the setters that store manual configuration,
`setManualDatabaseConfig`, `setManualBackupConfig`, `setManualS3Config`
and `resetManualConfig`, all fail with `invalidModeOperation` when called
in static (env) mode and leave the stored configuration unchanged;
`setConfigMode` however carries no such guard: switching to manual mode
from env mode succeeds. -/
theorem c8_manual_setters_fail_in_env_mode (st : ConfigState)
    (dbIn : DbConfigInput) (bkIn : BackupConfigInput) (s3In : S3ConfigInput)
    (hmode : st.configMode = "env") :
    setManualDatabaseConfig st dbIn = (st, .error .invalidModeOperation) ∧
    setManualBackupConfig st bkIn = (st, .error .invalidModeOperation) ∧
    setManualS3Config st s3In = (st, .error .invalidModeOperation) ∧
    resetManualConfig st = (st, .error .invalidModeOperation) ∧
    setConfigMode st "manual" = ({ st with configMode := "manual" }, .ok "manual") := by
  have hne : ¬(st.configMode == "manual") = true := by simp [hmode]
  refine ⟨?_, ?_, ?_, ?_, ?_⟩
  · simp [setManualDatabaseConfig, hne]
  · simp [setManualBackupConfig, hne]
  · simp [setManualS3Config, hne]
  · simp [resetManualConfig, hne]
  · simp [setConfigMode]

theorem c8_manual_setters_fail_in_env_mode_witness :
    (⟨"env", none, none, none⟩ : ConfigState).configMode = "env" ∧
    (setManualDatabaseConfig ⟨"env", none, none, none⟩
        ⟨"h", none, "u", none, "d", none, none⟩ =
      (⟨"env", none, none, none⟩, .error .invalidModeOperation) ∧
    setManualBackupConfig ⟨"env", none, none, none⟩
        ⟨none, none, none, none, none, none⟩ =
      (⟨"env", none, none, none⟩, .error .invalidModeOperation) ∧
    setManualS3Config ⟨"env", none, none, none⟩
        ⟨none, none, none, none, none, none, none⟩ =
      (⟨"env", none, none, none⟩, .error .invalidModeOperation) ∧
    resetManualConfig ⟨"env", none, none, none⟩ =
      (⟨"env", none, none, none⟩, .error .invalidModeOperation) ∧
    setConfigMode ⟨"env", none, none, none⟩ "manual" =
      (⟨"manual", none, none, none⟩, .ok "manual")) :=
  ⟨rfl, c8_manual_setters_fail_in_env_mode ⟨"env", none, none, none⟩
    ⟨"h", none, "u", none, "d", none, none⟩ ⟨none, none, none, none, none, none⟩
    ⟨none, none, none, none, none, none, none⟩ rfl⟩

/-- Claim C8 counterexample: `setConfigMode` (the `setMode` operation)
does not fail with `invalidModeOperation` in static (env) mode; called in
env mode it succeeds and switches the mode, which refutes the claim that
every configuration setter fails in static mode. -/
theorem c8_setConfigMode_succeeds_in_env_mode :
    (setConfigMode ⟨"env", none, none, none⟩ "manual").2 = .ok "manual" ∧
    (setConfigMode ⟨"env", none, none, none⟩ "manual").1.configMode = "manual" :=
  ⟨rfl, rfl⟩

/-- Claim C9: when the external dump tool fails, `createBackup` deletes
any partially written local file before propagating the creation error
carrying the diagnostic output of the tool, so the Local Archive contains
no artifact for a failed creation, and when no file with the generated
name pre-existed the archive is left unchanged. -/
theorem c9_createBackup_failure_cleans_local (files : List StoredFile) (filename : String)
    (backupFormat : String) (now : Int) (message : String) (written : Option Nat) :
    (createBackup files filename backupFormat now (.failure message written)).2 =
      .error (.backupCreationFailed ("Backup failed: " ++ message)) ∧
    filename ∉ storedNames
      (createBackup files filename backupFormat now (.failure message written)).1 ∧
    (filename ∉ storedNames files →
      (createBackup files filename backupFormat now (.failure message written)).1 = files) := by
  refine ⟨rfl, ?_, ?_⟩
  · intro hmem
    rw [mem_storedNames] at hmem
    obtain ⟨f, hf, hfe⟩ := hmem
    simp only [createBackup] at hf
    have hp := (List.mem_filter.mp hf).2
    simp [hfe] at hp
  · intro hnot
    have hall : ∀ f ∈ files, (!(f.name == filename)) = true := by
      intro f hf
      have hne : f.name ≠ filename := by
        intro he
        exact hnot (mem_storedNames.mpr ⟨f, hf, he⟩)
      simp [hne]
    simp only [createBackup]
    cases written with
    | none => exact List.filter_eq_self.mpr hall
    | some size =>
      rw [List.filter_append, List.filter_eq_self.mpr hall]
      simp

theorem c9_createBackup_failure_cleans_local_witness :
    (createBackup [] "backup_db_x.sql" "sql" 0 (.failure "boom" (some 5))).2 =
      .error (.backupCreationFailed ("Backup failed: " ++ "boom")) ∧
    "backup_db_x.sql" ∉ storedNames
      (createBackup [] "backup_db_x.sql" "sql" 0 (.failure "boom" (some 5))).1 ∧
    (createBackup [] "backup_db_x.sql" "sql" 0 (.failure "boom" (some 5))).1 = [] := by
  have h := c9_createBackup_failure_cleans_local [] "backup_db_x.sql" "sql" 0 "boom" (some 5)
  exact ⟨h.1, h.2.1, h.2.2 (by decide)⟩

/-- Claim C10 counterexample: for the input `..`, whose basename is `..`,
the resolved local path escapes the configured directory: joining
`./backups` with the basename normalizes to the parent of the backup
directory, so the backup directory is not a prefix of the resolved path.
The first conjunct shows the classic traversal input is indeed neutralized
by basename extraction, so only dot-dot basenames escape. -/
theorem c10_dotdot_escapes_directory :
    getLocalBackupPath "./backups" "../../etc/passwd" = ["backups", "passwd"] ∧
    pathBasename ".." = ".." ∧
    normalizePath (splitPath "./backups") = ["backups"] ∧
    getLocalBackupPath "./backups" ".." = ([] : List String) ∧
    List.isPrefixOf (normalizePath (splitPath "./backups"))
      (getLocalBackupPath "./backups" "..") = false := by
  refine ⟨by decide, by decide, by decide, by decide, by decide⟩

/-- Claim C10 (amended): for every input filename whose basename is a
regular component (not empty, `.` or `..`), the path used for local
deletion and local path resolution is the configured backup directory
joined with the basename of the input, a single component below the
configured directory, so it never escapes it. Inputs with a dot or
dot-dot basename (such as `..` itself) are the only exceptions to the
original claim. -/
theorem c10_resolved_path_stays_in_directory (localPath filename : String)
    (h0 : pathBasename filename ≠ "") (h1 : pathBasename filename ≠ ".")
    (h2 : pathBasename filename ≠ "..") :
    getLocalBackupPath localPath filename =
      normalizePath (splitPath localPath) ++ [pathBasename filename] := by
  unfold getLocalBackupPath
  rw [splitPath_no_slash (pathBasename filename) (pathBasename_no_slash filename)]
  exact normalizePath_append_single _ _ h0 h1 h2

theorem c10_resolved_path_stays_in_directory_witness :
    pathBasename "../../etc/passwd" ≠ "" ∧ pathBasename "../../etc/passwd" ≠ "." ∧
    pathBasename "../../etc/passwd" ≠ ".." ∧
    getLocalBackupPath "./backups" "../../etc/passwd" =
      normalizePath (splitPath "./backups") ++ [pathBasename "../../etc/passwd"] :=
  ⟨by decide, by decide, by decide,
    c10_resolved_path_stays_in_directory "./backups" "../../etc/passwd"
      (by decide) (by decide) (by decide)⟩

theorem selectedLocalBackups_both (lf : List StoredFile) :
    selectedLocalBackups "both" lf = listLocalBackups lf := rfl

theorem selectedRemoteBackups_both (rf : List StoredFile) :
    selectedRemoteBackups "both" true rf = listS3Backups rf := rfl

theorem selectedLocalBackups_local (lf : List StoredFile) :
    selectedLocalBackups "local" lf = listLocalBackups lf := rfl

theorem selectedRemoteBackups_local (s3c : Bool) (rf : List StoredFile) :
    selectedRemoteBackups "local" s3c rf = [] := rfl

theorem selectedLocalBackups_remote (lf : List StoredFile) :
    selectedLocalBackups "remote" lf = [] := rfl

theorem selectedRemoteBackups_remote (rf : List StoredFile) :
    selectedRemoteBackups "remote" true rf = listS3Backups rf := rfl

theorem selectedRemoteBackups_unconfigured (storage : String) (rf : List StoredFile) :
    selectedRemoteBackups storage false rf = [] := by
  unfold selectedRemoteBackups
  simp

theorem mergeBackups_location_charac (L R : List Artifact) (hR : (backupNames R).Nodup)
    (a : Artifact) (ha : a ∈ mergeBackups L R) :
    (a.filename ∈ backupNames L ∨ a.filename ∈ backupNames R) ∧
    (a.location = "local" ↔ a.filename ∈ backupNames L ∧ a.filename ∉ backupNames R) ∧
    (a.location = "remote" ↔ a.filename ∉ backupNames L ∧ a.filename ∈ backupNames R) ∧
    (a.location = "both" ↔ a.filename ∈ backupNames L ∧ a.filename ∈ backupNames R) := by
  rcases (mem_mergeBackups_iff L R hR a).mp ha with
    ⟨x, hx, hm, rfl⟩ | ⟨x, hx, hm, rfl⟩ | ⟨x, hx, hm, rfl⟩
  · have hinL : x.filename ∈ backupNames L := mem_backupNames.mpr ⟨x, hx, rfl⟩
    exact ⟨Or.inl hinL,
      iff_of_true rfl ⟨hinL, hm⟩,
      iff_of_false (fun h => (by decide : ("local" : String) ≠ "remote") h)
        (fun h => h.1 hinL),
      iff_of_false (fun h => (by decide : ("local" : String) ≠ "both") h)
        (fun h => hm h.2)⟩
  · have hinL : x.filename ∈ backupNames L := mem_backupNames.mpr ⟨x, hx, rfl⟩
    exact ⟨Or.inl hinL,
      iff_of_false (fun h => (by decide : ("both" : String) ≠ "local") h)
        (fun h => h.2 hm),
      iff_of_false (fun h => (by decide : ("both" : String) ≠ "remote") h)
        (fun h => h.1 hinL),
      iff_of_true rfl ⟨hinL, hm⟩⟩
  · have hinR : x.filename ∈ backupNames R := mem_backupNames.mpr ⟨x, hx, rfl⟩
    exact ⟨Or.inr hinR,
      iff_of_false (fun h => (by decide : ("remote" : String) ≠ "local") h)
        (fun h => hm h.1),
      iff_of_true rfl ⟨hm, hinR⟩,
      iff_of_false (fun h => (by decide : ("remote" : String) ≠ "both") h)
        (fun h => hm h.1)⟩

/-- Claim C1: with storage mode `both` and S3 configured, `listAllBackups`
merges the Local Archive and Remote Archive listings by filename, giving
location `local` to a filename present only locally, `remote` to a
filename present only remotely and `both` to a filename present in both
listings, and the merged artifacts are sorted descending by date. -/
theorem c1_listAllBackups_merges_and_sorts (localFiles remoteFiles : List StoredFile)
    (hL : (storedNames localFiles).Nodup) (hR : (storedNames remoteFiles).Nodup) :
    (listAllBackups "both" true localFiles remoteFiles).Sorted (fun a b => b.date ≤ a.date) ∧
    (∀ f, f ∈ backupNames (listLocalBackups localFiles) →
      f ∉ backupNames (listS3Backups remoteFiles) →
      ∃ a ∈ listAllBackups "both" true localFiles remoteFiles,
        a.filename = f ∧ a.location = "local") ∧
    (∀ f, f ∉ backupNames (listLocalBackups localFiles) →
      f ∈ backupNames (listS3Backups remoteFiles) →
      ∃ a ∈ listAllBackups "both" true localFiles remoteFiles,
        a.filename = f ∧ a.location = "remote") ∧
    (∀ f, f ∈ backupNames (listLocalBackups localFiles) →
      f ∈ backupNames (listS3Backups remoteFiles) →
      ∃ a ∈ listAllBackups "both" true localFiles remoteFiles,
        a.filename = f ∧ a.location = "both") ∧
    (∀ a ∈ listAllBackups "both" true localFiles remoteFiles,
      (a.filename ∈ backupNames (listLocalBackups localFiles) ∨
        a.filename ∈ backupNames (listS3Backups remoteFiles)) ∧
      (a.location = "local" ↔ a.filename ∈ backupNames (listLocalBackups localFiles) ∧
        a.filename ∉ backupNames (listS3Backups remoteFiles)) ∧
      (a.location = "remote" ↔ a.filename ∉ backupNames (listLocalBackups localFiles) ∧
        a.filename ∈ backupNames (listS3Backups remoteFiles)) ∧
      (a.location = "both" ↔ a.filename ∈ backupNames (listLocalBackups localFiles) ∧
        a.filename ∈ backupNames (listS3Backups remoteFiles))) := by
  have hRn : (backupNames (listS3Backups remoteFiles)).Nodup :=
    nodup_backupNames_listS3Backups _ hR
  have hperm := listAllBackups_perm "both" true localFiles remoteFiles
  rw [selectedLocalBackups_both, selectedRemoteBackups_both] at hperm
  refine ⟨listAllBackups_sorted _ _ _ _, ?_, ?_, ?_, ?_⟩
  · intro f hfL hfR
    obtain ⟨x, hx, hxe⟩ := mem_backupNames.mp hfL
    refine ⟨{ x with location := "local" }, ?_, hxe, rfl⟩
    apply hperm.mem_iff.mpr
    apply (mem_mergeBackups_iff _ _ hRn _).mpr
    exact Or.inl ⟨x, hx, hxe ▸ hfR, rfl⟩
  · intro f hfL hfR
    obtain ⟨x, hx, hxe⟩ := mem_backupNames.mp hfR
    refine ⟨{ x with location := "remote" }, ?_, hxe, rfl⟩
    apply hperm.mem_iff.mpr
    apply (mem_mergeBackups_iff _ _ hRn _).mpr
    exact Or.inr (Or.inr ⟨x, hx, hxe ▸ hfL, rfl⟩)
  · intro f hfL hfR
    obtain ⟨x, hx, hxe⟩ := mem_backupNames.mp hfL
    refine ⟨{ x with location := "both" }, ?_, hxe, rfl⟩
    apply hperm.mem_iff.mpr
    apply (mem_mergeBackups_iff _ _ hRn _).mpr
    exact Or.inr (Or.inl ⟨x, hx, hxe ▸ hfR, rfl⟩)
  · intro a ha
    exact mergeBackups_location_charac _ _ hRn a (hperm.mem_iff.mp ha)

theorem c1_listAllBackups_merges_and_sorts_witness :
    (storedNames [(⟨"backup_a.sql", 1, 5⟩ : StoredFile)]).Nodup ∧
    (storedNames [(⟨"backup_b.sql", 2, 3⟩ : StoredFile)]).Nodup ∧
    ((listAllBackups "both" true [⟨"backup_a.sql", 1, 5⟩]
        [⟨"backup_b.sql", 2, 3⟩]).Sorted (fun a b => b.date ≤ a.date) ∧
      (∀ f, f ∈ backupNames (listLocalBackups [⟨"backup_a.sql", 1, 5⟩]) →
        f ∉ backupNames (listS3Backups [⟨"backup_b.sql", 2, 3⟩]) →
        ∃ a ∈ listAllBackups "both" true [⟨"backup_a.sql", 1, 5⟩] [⟨"backup_b.sql", 2, 3⟩],
          a.filename = f ∧ a.location = "local") ∧
      (∀ f, f ∉ backupNames (listLocalBackups [⟨"backup_a.sql", 1, 5⟩]) →
        f ∈ backupNames (listS3Backups [⟨"backup_b.sql", 2, 3⟩]) →
        ∃ a ∈ listAllBackups "both" true [⟨"backup_a.sql", 1, 5⟩] [⟨"backup_b.sql", 2, 3⟩],
          a.filename = f ∧ a.location = "remote") ∧
      (∀ f, f ∈ backupNames (listLocalBackups [⟨"backup_a.sql", 1, 5⟩]) →
        f ∈ backupNames (listS3Backups [⟨"backup_b.sql", 2, 3⟩]) →
        ∃ a ∈ listAllBackups "both" true [⟨"backup_a.sql", 1, 5⟩] [⟨"backup_b.sql", 2, 3⟩],
          a.filename = f ∧ a.location = "both") ∧
      (∀ a ∈ listAllBackups "both" true [⟨"backup_a.sql", 1, 5⟩] [⟨"backup_b.sql", 2, 3⟩],
        (a.filename ∈ backupNames (listLocalBackups [⟨"backup_a.sql", 1, 5⟩]) ∨
          a.filename ∈ backupNames (listS3Backups [⟨"backup_b.sql", 2, 3⟩])) ∧
        (a.location = "local" ↔
          a.filename ∈ backupNames (listLocalBackups [⟨"backup_a.sql", 1, 5⟩]) ∧
          a.filename ∉ backupNames (listS3Backups [⟨"backup_b.sql", 2, 3⟩])) ∧
        (a.location = "remote" ↔
          a.filename ∉ backupNames (listLocalBackups [⟨"backup_a.sql", 1, 5⟩]) ∧
          a.filename ∈ backupNames (listS3Backups [⟨"backup_b.sql", 2, 3⟩])) ∧
        (a.location = "both" ↔
          a.filename ∈ backupNames (listLocalBackups [⟨"backup_a.sql", 1, 5⟩]) ∧
          a.filename ∈ backupNames (listS3Backups [⟨"backup_b.sql", 2, 3⟩])))) :=
  ⟨by decide, by decide,
    c1_listAllBackups_merges_and_sorts [⟨"backup_a.sql", 1, 5⟩] [⟨"backup_b.sql", 2, 3⟩]
      (by decide) (by decide)⟩

/-- Claim C4: the statistics computed by `getBackupStats` satisfy: `total`
is the number of merged artifacts, `totalSize` sums each merged artifact
size exactly once regardless of its location, and the `local` and `remote`
counters count an artifact once per side it appears on (an artifact with
location `both` increments both counters); in particular with storage mode
`both` and S3 configured they equal the lengths of the local and remote
listings respectively. -/
theorem c4_getBackupStats_counts (storage : String) (s3Configured : Bool)
    (localFiles remoteFiles : List StoredFile)
    (hL : (storedNames localFiles).Nodup) (hR : (storedNames remoteFiles).Nodup) :
    (getBackupStats storage s3Configured localFiles remoteFiles).total =
      (listAllBackups storage s3Configured localFiles remoteFiles).length ∧
    (getBackupStats storage s3Configured localFiles remoteFiles).totalSize =
      ((listAllBackups storage s3Configured localFiles remoteFiles).map Artifact.size).sum ∧
    (getBackupStats storage s3Configured localFiles remoteFiles).localCount =
      ((listAllBackups storage s3Configured localFiles remoteFiles).countP
        fun b => b.location == "local" || b.location == "both") ∧
    (getBackupStats storage s3Configured localFiles remoteFiles).remoteCount =
      ((listAllBackups storage s3Configured localFiles remoteFiles).countP
        fun b => b.location == "remote" || b.location == "both") ∧
    (storage = "both" → s3Configured = true →
      (getBackupStats storage s3Configured localFiles remoteFiles).localCount =
        (listLocalBackups localFiles).length ∧
      (getBackupStats storage s3Configured localFiles remoteFiles).remoteCount =
        (listS3Backups remoteFiles).length) := by
  have hRn : (backupNames (listS3Backups remoteFiles)).Nodup :=
    nodup_backupNames_listS3Backups _ hR
  have hLn : (backupNames (listLocalBackups localFiles)).Nodup :=
    nodup_backupNames_listLocalBackups _ hL
  rw [getBackupStats_eq]
  refine ⟨rfl, rfl, rfl, rfl, ?_⟩
  rintro rfl rfl
  have hperm := listAllBackups_perm "both" true localFiles remoteFiles
  rw [selectedLocalBackups_both, selectedRemoteBackups_both] at hperm
  constructor
  · show ((listAllBackups "both" true localFiles remoteFiles).countP
      fun b => b.location == "local" || b.location == "both") = _
    rw [hperm.countP_eq]
    exact countP_local_or_both_mergeBackups _ _ hRn
  · show ((listAllBackups "both" true localFiles remoteFiles).countP
      fun b => b.location == "remote" || b.location == "both") = _
    rw [hperm.countP_eq, countP_remote_or_both_mergeBackups _ _ hRn,
      countP_mem_names_comm _ _ hLn hRn]
    have hsplit :=
      (listS3Backups remoteFiles).length_eq_countP_add_countP fun b : Artifact =>
        decide (b.filename ∈ backupNames (listLocalBackups localFiles))
    rw [hsplit]
    congr 1
    apply List.countP_congr
    intro b _
    simp

theorem c4_getBackupStats_counts_witness :
    (storedNames [(⟨"backup_a.sql", 1, 5⟩ : StoredFile)]).Nodup ∧
    (storedNames [(⟨"backup_a.sql", 2, 4⟩ : StoredFile)]).Nodup ∧
    ((getBackupStats "both" true [⟨"backup_a.sql", 1, 5⟩] [⟨"backup_a.sql", 2, 4⟩]).total =
      (listAllBackups "both" true [⟨"backup_a.sql", 1, 5⟩] [⟨"backup_a.sql", 2, 4⟩]).length ∧
    (getBackupStats "both" true [⟨"backup_a.sql", 1, 5⟩] [⟨"backup_a.sql", 2, 4⟩]).totalSize =
      ((listAllBackups "both" true [⟨"backup_a.sql", 1, 5⟩]
        [⟨"backup_a.sql", 2, 4⟩]).map Artifact.size).sum ∧
    (getBackupStats "both" true [⟨"backup_a.sql", 1, 5⟩] [⟨"backup_a.sql", 2, 4⟩]).localCount =
      ((listAllBackups "both" true [⟨"backup_a.sql", 1, 5⟩]
        [⟨"backup_a.sql", 2, 4⟩]).countP
          fun b => b.location == "local" || b.location == "both") ∧
    (getBackupStats "both" true [⟨"backup_a.sql", 1, 5⟩] [⟨"backup_a.sql", 2, 4⟩]).remoteCount =
      ((listAllBackups "both" true [⟨"backup_a.sql", 1, 5⟩]
        [⟨"backup_a.sql", 2, 4⟩]).countP
          fun b => b.location == "remote" || b.location == "both") ∧
    ("both" = "both" → true = true →
      (getBackupStats "both" true [⟨"backup_a.sql", 1, 5⟩]
        [⟨"backup_a.sql", 2, 4⟩]).localCount =
        (listLocalBackups [⟨"backup_a.sql", 1, 5⟩]).length ∧
      (getBackupStats "both" true [⟨"backup_a.sql", 1, 5⟩]
        [⟨"backup_a.sql", 2, 4⟩]).remoteCount =
        (listS3Backups [⟨"backup_a.sql", 2, 4⟩]).length)) :=
  ⟨by decide, by decide,
    c4_getBackupStats_counts "both" true [⟨"backup_a.sql", 1, 5⟩] [⟨"backup_a.sql", 2, 4⟩]
      (by decide) (by decide)⟩

theorem locations_local_of_no_remote (storage : String) (s3c : Bool)
    (localFiles remoteFiles : List StoredFile)
    (hsel : selectedRemoteBackups storage s3c remoteFiles = []) :
    ∀ b ∈ listAllBackups storage s3c localFiles remoteFiles, b.location = "local" := by
  intro b hb
  have hperm := listAllBackups_perm storage s3c localFiles remoteFiles
  rw [hsel] at hperm
  have hmB : mergeBackups (selectedLocalBackups storage localFiles) [] =
      (selectedLocalBackups storage localFiles).map fun a => { a with location := "local" } :=
    rfl
  have hb' := hperm.mem_iff.mp hb
  rw [hmB] at hb'
  obtain ⟨x, _, rfl⟩ := List.mem_map.mp hb'
  rfl

theorem locations_remote_of_no_local (storage : String) (s3c : Bool)
    (localFiles remoteFiles : List StoredFile)
    (hRn : (backupNames (selectedRemoteBackups storage s3c remoteFiles)).Nodup)
    (hsel : selectedLocalBackups storage localFiles = []) :
    ∀ b ∈ listAllBackups storage s3c localFiles remoteFiles, b.location = "remote" := by
  intro b hb
  have hperm := listAllBackups_perm storage s3c localFiles remoteFiles
  rw [hsel] at hperm
  rcases (mem_mergeBackups_iff [] _ hRn b).mp (hperm.mem_iff.mp hb) with
    ⟨x, hx, _, _⟩ | ⟨x, hx, _, _⟩ | ⟨x, hx, _, rfl⟩
  · exact absurd hx (List.not_mem_nil x)
  · exact absurd hx (List.not_mem_nil x)
  · rfl

theorem retention_remote_untouched (storage : String) (s3c : Bool) (retentionDays : Nat)
    (now : Int) (st : ArchState)
    (hall : ∀ b ∈ listAllBackups storage s3c st.localFiles st.remoteFiles,
      b.location = "local") :
    (applyRetentionPolicy storage s3c retentionDays now st).1.remoteFiles =
      st.remoteFiles := by
  rw [applyRetentionPolicy_remoteFiles]
  have hdel : retentionDeletedRemoteNames (now - retentionDays)
      (listAllBackups storage s3c st.localFiles st.remoteFiles) = [] := by
    unfold retentionDeletedRemoteNames
    rw [List.map_eq_nil_iff, List.filter_eq_nil_iff]
    intro b hb
    have e1 : (("local" : String) == "remote") = false := by decide
    have e2 : (("local" : String) == "both") = false := by decide
    rw [hall b hb]
    simp [e1, e2]
  rw [hdel]
  apply List.filter_eq_self.mpr
  intro f _
  simp

theorem retention_local_untouched (storage : String) (s3c : Bool) (retentionDays : Nat)
    (now : Int) (st : ArchState)
    (hall : ∀ b ∈ listAllBackups storage s3c st.localFiles st.remoteFiles,
      b.location = "remote") :
    (applyRetentionPolicy storage s3c retentionDays now st).1.localFiles =
      st.localFiles := by
  rw [applyRetentionPolicy_localFiles]
  have hdel : retentionDeletedLocalNames (now - retentionDays)
      (listAllBackups storage s3c st.localFiles st.remoteFiles) = [] := by
    unfold retentionDeletedLocalNames
    rw [List.map_eq_nil_iff, List.filter_eq_nil_iff]
    intro b hb
    have e1 : (("remote" : String) == "local") = false := by decide
    have e2 : (("remote" : String) == "both") = false := by decide
    rw [hall b hb]
    simp [e1, e2]
  rw [hdel]
  apply List.filter_eq_self.mpr
  intro f _
  simp

/-- Claim C5: the merged listing consults an archive only when the storage
mode includes it, so under storage mode `local` every artifact has
location `local` (never `remote` or `both`), under storage mode `remote`
with S3 configured every artifact has location `remote`, with S3
unconfigured every artifact has location `local`, and a retention sweep
never deletes from an archive excluded by the current mode: under `local`
the remote archive is untouched, under `remote` the local archive is
untouched, and with S3 unconfigured the remote archive is untouched. -/
theorem c5_storage_mode_isolation (s3Configured : Bool) (storage : String)
    (localFiles remoteFiles : List StoredFile) (retentionDays : Nat) (now : Int)
    (st : ArchState) (hR : (storedNames remoteFiles).Nodup)
    (hRst : (storedNames st.remoteFiles).Nodup) :
    (∀ b ∈ listAllBackups "local" s3Configured localFiles remoteFiles,
      b.location = "local") ∧
    (∀ b ∈ listAllBackups "remote" true localFiles remoteFiles, b.location = "remote") ∧
    (∀ b ∈ listAllBackups storage false localFiles remoteFiles, b.location = "local") ∧
    (applyRetentionPolicy "local" s3Configured retentionDays now st).1.remoteFiles =
      st.remoteFiles ∧
    (applyRetentionPolicy "remote" true retentionDays now st).1.localFiles =
      st.localFiles ∧
    (applyRetentionPolicy storage false retentionDays now st).1.remoteFiles =
      st.remoteFiles := by
  refine ⟨?_, ?_, ?_, ?_, ?_, ?_⟩
  · exact locations_local_of_no_remote "local" s3Configured localFiles remoteFiles rfl
  · apply locations_remote_of_no_local "remote" true localFiles remoteFiles
    · rw [selectedRemoteBackups_remote]
      exact nodup_backupNames_listS3Backups _ hR
    · rfl
  · exact locations_local_of_no_remote storage false localFiles remoteFiles
      (selectedRemoteBackups_unconfigured storage remoteFiles)
  · exact retention_remote_untouched "local" s3Configured retentionDays now st
      (locations_local_of_no_remote "local" s3Configured st.localFiles st.remoteFiles rfl)
  · apply retention_local_untouched "remote" true retentionDays now st
    apply locations_remote_of_no_local "remote" true st.localFiles st.remoteFiles
    · rw [selectedRemoteBackups_remote]
      exact nodup_backupNames_listS3Backups _ hRst
    · rfl
  · exact retention_remote_untouched storage false retentionDays now st
      (locations_local_of_no_remote storage false st.localFiles st.remoteFiles
        (selectedRemoteBackups_unconfigured storage st.remoteFiles))

theorem c5_storage_mode_isolation_witness :
    (storedNames [(⟨"backup_b.sql", 2, 3⟩ : StoredFile)]).Nodup ∧
    (storedNames (⟨[⟨"backup_a.sql", 1, 5⟩], [⟨"backup_b.sql", 2, 3⟩]⟩ :
      ArchState).remoteFiles).Nodup ∧
    ((∀ b ∈ listAllBackups "local" true [⟨"backup_a.sql", 1, 5⟩] [⟨"backup_b.sql", 2, 3⟩],
        b.location = "local") ∧
      (∀ b ∈ listAllBackups "remote" true [⟨"backup_a.sql", 1, 5⟩] [⟨"backup_b.sql", 2, 3⟩],
        b.location = "remote") ∧
      (∀ b ∈ listAllBackups "both" false [⟨"backup_a.sql", 1, 5⟩] [⟨"backup_b.sql", 2, 3⟩],
        b.location = "local") ∧
      (applyRetentionPolicy "local" true 7 0
        ⟨[⟨"backup_a.sql", 1, 5⟩], [⟨"backup_b.sql", 2, 3⟩]⟩).1.remoteFiles =
        (⟨[⟨"backup_a.sql", 1, 5⟩], [⟨"backup_b.sql", 2, 3⟩]⟩ : ArchState).remoteFiles ∧
      (applyRetentionPolicy "remote" true 7 0
        ⟨[⟨"backup_a.sql", 1, 5⟩], [⟨"backup_b.sql", 2, 3⟩]⟩).1.localFiles =
        (⟨[⟨"backup_a.sql", 1, 5⟩], [⟨"backup_b.sql", 2, 3⟩]⟩ : ArchState).localFiles ∧
      (applyRetentionPolicy "both" false 7 0
        ⟨[⟨"backup_a.sql", 1, 5⟩], [⟨"backup_b.sql", 2, 3⟩]⟩).1.remoteFiles =
        (⟨[⟨"backup_a.sql", 1, 5⟩], [⟨"backup_b.sql", 2, 3⟩]⟩ : ArchState).remoteFiles) :=
  ⟨by decide, by decide,
    c5_storage_mode_isolation true "both" [⟨"backup_a.sql", 1, 5⟩] [⟨"backup_b.sql", 2, 3⟩]
      7 0 ⟨[⟨"backup_a.sql", 1, 5⟩], [⟨"backup_b.sql", 2, 3⟩]⟩ (by decide) (by decide)⟩

/-- Claim C2: `applyRetentionPolicy` computes the cutoff as now minus
`retentionDays` and deletes every reconciled artifact dated strictly
before the cutoff from each archive its location names, counting each such
artifact exactly once regardless of how many archives it was removed
from: the returned count is the number of expired artifacts in the
reconciled listing, the surviving files are exactly those not named by an
expired artifact of the matching location, and every expired artifact is
gone from the archives its location names. In particular with
`retentionDays = 7` an artifact eight days old is deleted while one six
days old is retained. -/
theorem c2_applyRetentionPolicy_deletes_expired (storage : String) (s3Configured : Bool)
    (retentionDays : Nat) (now : Int) (st : ArchState) :
    (applyRetentionPolicy storage s3Configured retentionDays now st).2 =
      ((listAllBackups storage s3Configured st.localFiles st.remoteFiles).countP
        fun b => decide (b.date < now - retentionDays)) ∧
    (applyRetentionPolicy storage s3Configured retentionDays now st).1.localFiles =
      (st.localFiles.filter fun f =>
        decide (f.name ∉ retentionDeletedLocalNames (now - retentionDays)
          (listAllBackups storage s3Configured st.localFiles st.remoteFiles))) ∧
    (applyRetentionPolicy storage s3Configured retentionDays now st).1.remoteFiles =
      (st.remoteFiles.filter fun f =>
        decide (f.name ∉ retentionDeletedRemoteNames (now - retentionDays)
          (listAllBackups storage s3Configured st.localFiles st.remoteFiles))) ∧
    (∀ b ∈ listAllBackups storage s3Configured st.localFiles st.remoteFiles,
      b.date < now - retentionDays →
      ((b.location = "local" ∨ b.location = "both") →
        pathBasename b.filename ∉ storedNames
          (applyRetentionPolicy storage s3Configured retentionDays now st).1.localFiles) ∧
      ((b.location = "remote" ∨ b.location = "both") →
        b.filename ∉ storedNames
          (applyRetentionPolicy storage s3Configured retentionDays now st).1.remoteFiles)) ∧
    applyRetentionPolicy "local" false 7 0
        ⟨[⟨"backup_old.sql", 10, -8⟩, ⟨"backup_new.sql", 10, -6⟩], []⟩ =
      (⟨[⟨"backup_new.sql", 10, -6⟩], []⟩, 1) := by
  refine ⟨applyRetentionPolicy_count storage s3Configured retentionDays now st,
    applyRetentionPolicy_localFiles storage s3Configured retentionDays now st,
    applyRetentionPolicy_remoteFiles storage s3Configured retentionDays now st,
    ?_, by decide⟩
  intro b hb hdate
  have hd : decide (b.date < now - retentionDays) = true := decide_eq_true hdate
  constructor
  · intro hloc hmem
    rw [applyRetentionPolicy_localFiles, mem_storedNames] at hmem
    obtain ⟨f, hf, hfe⟩ := hmem
    have hfp := (List.mem_filter.mp hf).2
    rw [decide_eq_true_eq] at hfp
    apply hfp
    rw [hfe]
    unfold retentionDeletedLocalNames
    apply List.mem_map_of_mem
    apply List.mem_filter.mpr
    refine ⟨hb, ?_⟩
    rcases hloc with hl | hl <;> simp [hd, hl]
  · intro hloc hmem
    rw [applyRetentionPolicy_remoteFiles, mem_storedNames] at hmem
    obtain ⟨f, hf, hfe⟩ := hmem
    have hfp := (List.mem_filter.mp hf).2
    rw [decide_eq_true_eq] at hfp
    apply hfp
    rw [hfe]
    unfold retentionDeletedRemoteNames
    apply List.mem_map_of_mem
    apply List.mem_filter.mpr
    refine ⟨hb, ?_⟩
    rcases hloc with hl | hl <;> simp [hd, hl]

theorem localArtifact_mem (files : List StoredFile) (f : StoredFile) (hf : f ∈ files)
    (hext : (strEndsWith f.name ".sql" || strEndsWith f.name ".dump") = true) :
    localArtifact f ∈ listLocalBackups files :=
  mem_listLocalBackups.mpr ⟨f, hf, hext, rfl⟩

theorem remoteArtifact_mem (s3Objects : List StoredFile) (o : StoredFile)
    (ho : o ∈ s3Objects) (hpre : strStartsWith o.name "backup_" = true) :
    remoteArtifact o ∈ listS3Backups s3Objects :=
  mem_listS3Backups.mpr ⟨o, ho, hpre, rfl⟩

theorem mem_listLocalBackups_elim {a : Artifact} {files : List StoredFile}
    (ha : a ∈ listLocalBackups files) :
    ∃ f ∈ files, (strEndsWith f.name ".sql" || strEndsWith f.name ".dump") = true ∧
      a = localArtifact f :=
  mem_listLocalBackups.mp ha

theorem mem_listS3Backups_elim {a : Artifact} {s3Objects : List StoredFile}
    (ha : a ∈ listS3Backups s3Objects) :
    ∃ o ∈ s3Objects, strStartsWith o.name "backup_" = true ∧ a = remoteArtifact o :=
  mem_listS3Backups.mp ha

theorem selectedLocalBackups_pos (storage : String) (lf : List StoredFile)
    (hbl : (storage == "local" || storage == "both") = true) :
    selectedLocalBackups storage lf = listLocalBackups lf := by
  unfold selectedLocalBackups
  rw [if_pos hbl]

theorem selectedLocalBackups_neg (storage : String) (lf : List StoredFile)
    (hbl : ¬(storage == "local" || storage == "both") = true) :
    selectedLocalBackups storage lf = [] := by
  unfold selectedLocalBackups
  rw [if_neg hbl]

theorem selectedRemoteBackups_pos (storage : String) (s3c : Bool) (rf : List StoredFile)
    (hbr : ((storage == "remote" || storage == "both") && s3c) = true) :
    selectedRemoteBackups storage s3c rf = listS3Backups rf := by
  unfold selectedRemoteBackups
  rw [if_pos hbr]

theorem selectedRemoteBackups_neg (storage : String) (s3c : Bool) (rf : List StoredFile)
    (hbr : ¬((storage == "remote" || storage == "both") && s3c) = true) :
    selectedRemoteBackups storage s3c rf = [] := by
  unfold selectedRemoteBackups
  rw [if_neg hbr]

theorem nodup_backupNames_selectedRemote (storage : String) (s3c : Bool)
    (rf : List StoredFile) (h : (storedNames rf).Nodup) :
    (backupNames (selectedRemoteBackups storage s3c rf)).Nodup := by
  unfold selectedRemoteBackups
  split
  · exact nodup_backupNames_listS3Backups _ h
  · simp [backupNames]

theorem nodup_storedNames_filter (l : List StoredFile) (p : StoredFile → Bool)
    (h : (storedNames l).Nodup) : (storedNames (l.filter p)).Nodup :=
  List.Nodup.sublist (List.Sublist.map _ (List.filter_sublist _)) h

theorem eq_of_mem_of_nodup_storedNames {l : List StoredFile}
    (h : (storedNames l).Nodup) {f g : StoredFile} (hf : f ∈ l) (hg : g ∈ l)
    (he : f.name = g.name) : f = g :=
  List.inj_on_of_nodup_map h hf hg he

theorem retention_local_survivors (storage : String) (s3c : Bool) (retentionDays : Nat)
    (now : Int) (st : ArchState)
    (hbl : (storage == "local" || storage == "both") = true)
    (hRn : (storedNames st.remoteFiles).Nodup)
    (hLs : ∀ f ∈ st.localFiles, '/' ∉ f.name.data) :
    ∀ f ∈ (applyRetentionPolicy storage s3c retentionDays now st).1.localFiles,
      (strEndsWith f.name ".sql" || strEndsWith f.name ".dump") = true →
      ¬f.mtime < now - retentionDays := by
  intro f hf hext hlt
  rw [applyRetentionPolicy_localFiles] at hf
  have hf0 := (List.mem_filter.mp hf).1
  have hfp := (List.mem_filter.mp hf).2
  rw [decide_eq_true_eq] at hfp
  apply hfp
  have haL : localArtifact f ∈ listLocalBackups st.localFiles :=
    localArtifact_mem _ _ hf0 hext
  have hRsel : (backupNames (selectedRemoteBackups storage s3c st.remoteFiles)).Nodup :=
    nodup_backupNames_selectedRemote storage s3c st.remoteFiles hRn
  have hperm := listAllBackups_perm storage s3c st.localFiles st.remoteFiles
  rw [selectedLocalBackups_pos storage st.localFiles hbl] at hperm
  have hdec : decide (f.mtime < now - (retentionDays : Int)) = true := decide_eq_true hlt
  by_cases hmemR :
      (localArtifact f).filename ∈ backupNames (selectedRemoteBackups storage s3c st.remoteFiles)
  · have hb0 : ({ localArtifact f with location := "both" } : Artifact) ∈
        mergeBackups (listLocalBackups st.localFiles)
          (selectedRemoteBackups storage s3c st.remoteFiles) :=
      (mem_mergeBackups_iff _ _ hRsel _).mpr (Or.inr (Or.inl ⟨localArtifact f, haL, hmemR, rfl⟩))
    have hball := hperm.mem_iff.mpr hb0
    have hname : pathBasename ({ localArtifact f with location := "both" } : Artifact).filename
        = f.name := by
      simp [localArtifact, pathBasename_eq_self f.name (hLs f hf0)]
    unfold retentionDeletedLocalNames
    rw [List.mem_map]
    refine ⟨{ localArtifact f with location := "both" }, ?_, hname⟩
    rw [List.mem_filter]
    refine ⟨hball, ?_⟩
    simp [localArtifact, hdec]
  · have hb0 : ({ localArtifact f with location := "local" } : Artifact) ∈
        mergeBackups (listLocalBackups st.localFiles)
          (selectedRemoteBackups storage s3c st.remoteFiles) :=
      (mem_mergeBackups_iff _ _ hRsel _).mpr (Or.inl ⟨localArtifact f, haL, hmemR, rfl⟩)
    have hball := hperm.mem_iff.mpr hb0
    have hname : pathBasename ({ localArtifact f with location := "local" } : Artifact).filename
        = f.name := by
      simp [localArtifact, pathBasename_eq_self f.name (hLs f hf0)]
    unfold retentionDeletedLocalNames
    rw [List.mem_map]
    refine ⟨{ localArtifact f with location := "local" }, ?_, hname⟩
    rw [List.mem_filter]
    refine ⟨hball, ?_⟩
    simp [localArtifact, hdec]

theorem retention_remote_survivor_expired (storage : String) (s3c : Bool)
    (retentionDays : Nat) (now : Int) (st : ArchState)
    (hbr : ((storage == "remote" || storage == "both") && s3c) = true)
    (hLn : (storedNames st.localFiles).Nodup)
    (hRn : (storedNames st.remoteFiles).Nodup)
    (hLs : ∀ f ∈ st.localFiles, '/' ∉ f.name.data) :
    ∀ o ∈ (applyRetentionPolicy storage s3c retentionDays now st).1.remoteFiles,
      strStartsWith o.name "backup_" = true → o.mtime < now - retentionDays →
      (storage == "local" || storage == "both") = true ∧
      ∃ f ∈ (applyRetentionPolicy storage s3c retentionDays now st).1.localFiles,
        (strEndsWith f.name ".sql" || strEndsWith f.name ".dump") = true ∧
        f.name = o.name := by
  intro o ho hpre holt
  rw [applyRetentionPolicy_remoteFiles] at ho
  have ho0 := (List.mem_filter.mp ho).1
  have hop := (List.mem_filter.mp ho).2
  rw [decide_eq_true_eq] at hop
  have hRRn : (backupNames (listS3Backups st.remoteFiles)).Nodup :=
    nodup_backupNames_listS3Backups _ hRn
  have hperm := listAllBackups_perm storage s3c st.localFiles st.remoteFiles
  rw [selectedRemoteBackups_pos storage s3c st.remoteFiles hbr] at hperm
  have hx : remoteArtifact o ∈ listS3Backups st.remoteFiles :=
    remoteArtifact_mem _ _ ho0 hpre
  by_cases hinL : (remoteArtifact o).filename ∈
      backupNames (selectedLocalBackups storage st.localFiles)
  · -- the filename also occurs in the consulted local listing
    have hbl : (storage == "local" || storage == "both") = true := by
      by_contra hbl
      rw [selectedLocalBackups_neg storage st.localFiles hbl] at hinL
      simp [backupNames] at hinL
    rw [selectedLocalBackups_pos storage st.localFiles hbl] at hinL hperm
    obtain ⟨aL, haL, haLe⟩ := mem_backupNames.mp hinL
    obtain ⟨f, hfmem, hfext, rfl⟩ := mem_listLocalBackups_elim haL
    have hfname : f.name = o.name := by simpa [localArtifact] using haLe
    by_cases hflt : f.mtime < now - retentionDays
    · -- the merged artifact carries the local date, is expired with
      -- location both, so the remote copy would have been deleted
      exfalso
      apply hop
      have hmemR : (localArtifact f).filename ∈
          backupNames (listS3Backups st.remoteFiles) := by
        rw [haLe]
        exact mem_backupNames.mpr ⟨remoteArtifact o, hx, rfl⟩
      have hb0 : ({ localArtifact f with location := "both" } : Artifact) ∈
          mergeBackups (listLocalBackups st.localFiles) (listS3Backups st.remoteFiles) :=
        (mem_mergeBackups_iff _ _ hRRn _).mpr
          (Or.inr (Or.inl ⟨localArtifact f, haL, hmemR, rfl⟩))
      have hball := hperm.mem_iff.mpr hb0
      unfold retentionDeletedRemoteNames
      rw [List.mem_map]
      refine ⟨{ localArtifact f with location := "both" }, ?_, ?_⟩
      · rw [List.mem_filter]
        exact ⟨hball, by simp [localArtifact, decide_eq_true hflt]⟩
      · simpa [localArtifact] using hfname
    · -- the matching local file survives the sweep
      refine ⟨hbl, f, ?_, hfext, hfname⟩
      rw [applyRetentionPolicy_localFiles, List.mem_filter]
      refine ⟨hfmem, ?_⟩
      rw [decide_eq_true_eq]
      intro hmemdel
      unfold retentionDeletedLocalNames at hmemdel
      rw [List.mem_map] at hmemdel
      obtain ⟨b', hb', hb'e⟩ := hmemdel
      rw [List.mem_filter] at hb'
      obtain ⟨hb'mem, hb'pred⟩ := hb'
      rw [Bool.and_eq_true] at hb'pred
      obtain ⟨hd1, hd2⟩ := hb'pred
      rcases (mem_mergeBackups_iff _ _ hRRn b').mp (hperm.mem_iff.mp hb'mem) with
        ⟨y, hy, hym, rfl⟩ | ⟨y, hy, hym, rfl⟩ | ⟨y, hy, hym, rfl⟩
      · obtain ⟨g, hg, hgext, rfl⟩ := mem_listLocalBackups_elim hy
        have hgname : g.name = f.name := by
          simpa [localArtifact, pathBasename_eq_self g.name (hLs g hg)] using hb'e
        have hgf : g = f := eq_of_mem_of_nodup_storedNames hLn hg hfmem hgname
        subst hgf
        exact hflt (of_decide_eq_true hd1)
      · obtain ⟨g, hg, hgext, rfl⟩ := mem_listLocalBackups_elim hy
        have hgname : g.name = f.name := by
          simpa [localArtifact, pathBasename_eq_self g.name (hLs g hg)] using hb'e
        have hgf : g = f := eq_of_mem_of_nodup_storedNames hLn hg hfmem hgname
        subst hgf
        exact hflt (of_decide_eq_true hd1)
      · exact (by decide :
          ¬((("remote" : String) == "local" || ("remote" : String) == "both") = true)) hd2
  · -- the filename is remote-only: the expired remote artifact would have
    -- been deleted
    exfalso
    apply hop
    have hb0 : ({ remoteArtifact o with location := "remote" } : Artifact) ∈
        mergeBackups (selectedLocalBackups storage st.localFiles)
          (listS3Backups st.remoteFiles) :=
      (mem_mergeBackups_iff _ _ hRRn _).mpr
        (Or.inr (Or.inr ⟨remoteArtifact o, hx, hinL, rfl⟩))
    have hball := hperm.mem_iff.mpr hb0
    unfold retentionDeletedRemoteNames
    rw [List.mem_map]
    refine ⟨{ remoteArtifact o with location := "remote" }, ?_, ?_⟩
    · rw [List.mem_filter]
      exact ⟨hball, by simp [remoteArtifact, decide_eq_true holt]⟩
    · simp [remoteArtifact]

/-- Claim C3: running `applyRetentionPolicy` twice in succession with no
intervening backups created returns 0 from the second call: the first
sweep removes every expired artifact from the reconciled view, so the
second sweep finds none to delete. -/
theorem c3_applyRetentionPolicy_idempotent (storage : String) (s3Configured : Bool)
    (retentionDays : Nat) (now : Int) (st : ArchState)
    (hLn : (storedNames st.localFiles).Nodup)
    (hRn : (storedNames st.remoteFiles).Nodup)
    (hLs : ∀ f ∈ st.localFiles, '/' ∉ f.name.data) :
    (applyRetentionPolicy storage s3Configured retentionDays now
      (applyRetentionPolicy storage s3Configured retentionDays now st).1).2 = 0 := by
  rw [applyRetentionPolicy_count]
  apply List.countP_eq_zero.mpr
  intro b hb hdec
  have hdate := of_decide_eq_true hdec
  have h1remNodup : (storedNames
      (applyRetentionPolicy storage s3Configured retentionDays now st).1.remoteFiles).Nodup := by
    rw [applyRetentionPolicy_remoteFiles]
    exact nodup_storedNames_filter _ _ hRn
  have hperm := listAllBackups_perm storage s3Configured
    (applyRetentionPolicy storage s3Configured retentionDays now st).1.localFiles
    (applyRetentionPolicy storage s3Configured retentionDays now st).1.remoteFiles
  have hRsel1 : (backupNames (selectedRemoteBackups storage s3Configured
      (applyRetentionPolicy storage s3Configured retentionDays now st).1.remoteFiles)).Nodup :=
    nodup_backupNames_selectedRemote _ _ _ h1remNodup
  rcases (mem_mergeBackups_iff _ _ hRsel1 b).mp (hperm.mem_iff.mp hb) with
    ⟨y, hy, hym, rfl⟩ | ⟨y, hy, hym, rfl⟩ | ⟨y, hy, hym, rfl⟩
  · by_cases hbl : (storage == "local" || storage == "both") = true
    · rw [selectedLocalBackups_pos _ _ hbl] at hy
      obtain ⟨f, hf, hfext, rfl⟩ := mem_listLocalBackups_elim hy
      exact retention_local_survivors storage s3Configured retentionDays now st
        hbl hRn hLs f hf hfext hdate
    · rw [selectedLocalBackups_neg _ _ hbl] at hy
      exact absurd hy (List.not_mem_nil _)
  · by_cases hbl : (storage == "local" || storage == "both") = true
    · rw [selectedLocalBackups_pos _ _ hbl] at hy
      obtain ⟨f, hf, hfext, rfl⟩ := mem_listLocalBackups_elim hy
      exact retention_local_survivors storage s3Configured retentionDays now st
        hbl hRn hLs f hf hfext hdate
    · rw [selectedLocalBackups_neg _ _ hbl] at hy
      exact absurd hy (List.not_mem_nil _)
  · by_cases hbr : ((storage == "remote" || storage == "both") && s3Configured) = true
    · rw [selectedRemoteBackups_pos _ _ _ hbr] at hy
      obtain ⟨o, ho, hpre, rfl⟩ := mem_listS3Backups_elim hy
      obtain ⟨hbl, f, hf1, hfext, hfname⟩ :=
        retention_remote_survivor_expired storage s3Configured retentionDays now st
          hbr hLn hRn hLs o ho hpre hdate
      apply hym
      rw [selectedLocalBackups_pos _ _ hbl]
      have hfl : localArtifact f ∈ listLocalBackups
          (applyRetentionPolicy storage s3Configured retentionDays now st).1.localFiles :=
        localArtifact_mem _ _ hf1 hfext
      have hne : ({ remoteArtifact o with location := "remote" } : Artifact).filename =
          f.name := by
        simp [remoteArtifact, hfname]
      rw [hne]
      exact mem_backupNames.mpr ⟨localArtifact f, hfl, rfl⟩
    · rw [selectedRemoteBackups_neg _ _ _ hbr] at hy
      exact absurd hy (List.not_mem_nil _)

theorem c3_applyRetentionPolicy_idempotent_witness :
    (storedNames [(⟨"backup_old.sql", 10, -8⟩ : StoredFile),
      ⟨"backup_new.sql", 10, -6⟩]).Nodup ∧
    (storedNames [(⟨"backup_old.sql", 10, -9⟩ : StoredFile)]).Nodup ∧
    (∀ f ∈ [(⟨"backup_old.sql", 10, -8⟩ : StoredFile), ⟨"backup_new.sql", 10, -6⟩],
      '/' ∉ f.name.data) ∧
    (applyRetentionPolicy "both" true 7 0
      (applyRetentionPolicy "both" true 7 0
        ⟨[⟨"backup_old.sql", 10, -8⟩, ⟨"backup_new.sql", 10, -6⟩],
          [⟨"backup_old.sql", 10, -9⟩]⟩).1).2 = 0 :=
  ⟨by decide, by decide, by decide,
    c3_applyRetentionPolicy_idempotent "both" true 7 0
      ⟨[⟨"backup_old.sql", 10, -8⟩, ⟨"backup_new.sql", 10, -6⟩],
        [⟨"backup_old.sql", 10, -9⟩]⟩ (by decide) (by decide) (by decide)⟩

theorem c2_applyRetentionPolicy_deletes_expired_witness :
    (applyRetentionPolicy "local" false 7 0
        ⟨[⟨"backup_old.sql", 10, -8⟩, ⟨"backup_new.sql", 10, -6⟩], []⟩).2 =
      ((listAllBackups "local" false
        (⟨[⟨"backup_old.sql", 10, -8⟩, ⟨"backup_new.sql", 10, -6⟩], []⟩ :
          ArchState).localFiles
        (⟨[⟨"backup_old.sql", 10, -8⟩, ⟨"backup_new.sql", 10, -6⟩], []⟩ :
          ArchState).remoteFiles).countP
        fun b => decide (b.date < (0 : Int) - ((7 : Nat) : Int))) ∧
    (applyRetentionPolicy "local" false 7 0
        ⟨[⟨"backup_old.sql", 10, -8⟩, ⟨"backup_new.sql", 10, -6⟩], []⟩).1.localFiles =
      ((⟨[⟨"backup_old.sql", 10, -8⟩, ⟨"backup_new.sql", 10, -6⟩], []⟩ :
          ArchState).localFiles.filter fun f =>
        decide (f.name ∉ retentionDeletedLocalNames ((0 : Int) - ((7 : Nat) : Int))
          (listAllBackups "local" false
            (⟨[⟨"backup_old.sql", 10, -8⟩, ⟨"backup_new.sql", 10, -6⟩], []⟩ :
              ArchState).localFiles
            (⟨[⟨"backup_old.sql", 10, -8⟩, ⟨"backup_new.sql", 10, -6⟩], []⟩ :
              ArchState).remoteFiles))) ∧
    (applyRetentionPolicy "local" false 7 0
        ⟨[⟨"backup_old.sql", 10, -8⟩, ⟨"backup_new.sql", 10, -6⟩], []⟩).1.remoteFiles =
      ((⟨[⟨"backup_old.sql", 10, -8⟩, ⟨"backup_new.sql", 10, -6⟩], []⟩ :
          ArchState).remoteFiles.filter fun f =>
        decide (f.name ∉ retentionDeletedRemoteNames ((0 : Int) - ((7 : Nat) : Int))
          (listAllBackups "local" false
            (⟨[⟨"backup_old.sql", 10, -8⟩, ⟨"backup_new.sql", 10, -6⟩], []⟩ :
              ArchState).localFiles
            (⟨[⟨"backup_old.sql", 10, -8⟩, ⟨"backup_new.sql", 10, -6⟩], []⟩ :
              ArchState).remoteFiles))) ∧
    (∀ b ∈ listAllBackups "local" false
        (⟨[⟨"backup_old.sql", 10, -8⟩, ⟨"backup_new.sql", 10, -6⟩], []⟩ :
          ArchState).localFiles
        (⟨[⟨"backup_old.sql", 10, -8⟩, ⟨"backup_new.sql", 10, -6⟩], []⟩ :
          ArchState).remoteFiles,
      b.date < (0 : Int) - ((7 : Nat) : Int) →
      ((b.location = "local" ∨ b.location = "both") →
        pathBasename b.filename ∉ storedNames
          (applyRetentionPolicy "local" false 7 0
            ⟨[⟨"backup_old.sql", 10, -8⟩, ⟨"backup_new.sql", 10, -6⟩], []⟩).1.localFiles) ∧
      ((b.location = "remote" ∨ b.location = "both") →
        b.filename ∉ storedNames
          (applyRetentionPolicy "local" false 7 0
            ⟨[⟨"backup_old.sql", 10, -8⟩, ⟨"backup_new.sql", 10, -6⟩], []⟩).1.remoteFiles)) ∧
    applyRetentionPolicy "local" false 7 0
        ⟨[⟨"backup_old.sql", 10, -8⟩, ⟨"backup_new.sql", 10, -6⟩], []⟩ =
      (⟨[⟨"backup_new.sql", 10, -6⟩], []⟩, 1) :=
  c2_applyRetentionPolicy_deletes_expired "local" false 7 0
    ⟨[⟨"backup_old.sql", 10, -8⟩, ⟨"backup_new.sql", 10, -6⟩], []⟩
